import Mathlib

/-!
# Dirwatcher: the watch-target lifecycle engine of `src/src/dirwatcher_win32.c`

A shallow embedding of the Win32 implementation of the directory watcher:

* the event translator (`_action_to_event`, `_go_next_notify`, `_get_notifies_count`,
  `_notifies_to_events`, `_cleanup_events`);
* the target object and the public lifecycle functions;
* the worker thread routine, as a small-step machine that is interleaved with the
  lifecycle calls of other threads;
* a close in progress, whose actions are interleaved one by one with the worker.

Conventions.  `Option` is used twice: a C pointer that may be `NULL` is an `Option`, and a
function whose C execution would read or write outside an object returns `none`.
`DWORD`/`int` values are natural numbers; `LONG` fields are integers, and the one
`DWORD → LONG` conversion of the source is the explicit wrap `toLONG`.
-/

namespace Dirwatcher

/-! ## Win32 constants (winnt.h / winerror.h) -/

def FILE_ACTION_ADDED : Nat := 1
def FILE_ACTION_REMOVED : Nat := 2
def FILE_ACTION_MODIFIED : Nat := 3
def FILE_ACTION_RENAMED_OLD_NAME : Nat := 4
def FILE_ACTION_RENAMED_NEW_NAME : Nat := 5

def ERROR_INVALID_FUNCTION : Int := 1
def ERROR_TOO_MANY_OPEN_FILES : Int := 4
def ERROR_ACCESS_DENIED : Int := 5
def ERROR_NOT_ENOUGH_MEMORY : Int := 8
def ERROR_OUTOFMEMORY : Int := 14
def ERROR_INVALID_PARAMETER : Int := 87
def ERROR_OPERATION_ABORTED : Nat := 995
def ERROR_NOACCESS : Int := 998
def ERROR_NOTIFY_ENUM_DIR : Int := 1022

/-! ## dirwatcher.h -/

/-- The enum `dirwatcher_event_t` (values 0 .. 6 in declaration order). -/
inductive dirwatcher_event_t where
  | DIRWATCHER_EVENT_NULL
  | DIRWATCHER_EVENT_ADDED
  | DIRWATCHER_EVENT_REMOVED
  | DIRWATCHER_EVENT_MODIFIED
  | DIRWATCHER_EVENT_RENAMED_FROM
  | DIRWATCHER_EVENT_RENAMED_TO
  | DIRWATCHER_EVENT_COUNT
deriving DecidableEq, Repr

/-- The enum `dirwatcher_error_t` (`DIRWATCHER_INVALID_TARGET = -1`, then 0 .. 5). -/
inductive dirwatcher_error_t where
  | DIRWATCHER_INVALID_TARGET
  | DIRWATCHER_SUCCESS
  | DIRWATCHER_UNKNOWN_INTERNAL_ERROR
  | DIRWATCHER_TARGET_NOT_SUPPORTED
  | DIRWATCHER_ACCESS_DENIED
  | DIRWATCHER_MEMORY_NOT_ENOUGH
  | DIRWATCHER_UNKNOWN_OS_ERROR
deriving DecidableEq, Repr

/-- The integer value of a `dirwatcher_error_t` enumerator. -/
def dirwatcher_error_t.toInt : dirwatcher_error_t → Int
  | .DIRWATCHER_INVALID_TARGET => -1
  | .DIRWATCHER_SUCCESS => 0
  | .DIRWATCHER_UNKNOWN_INTERNAL_ERROR => 1
  | .DIRWATCHER_TARGET_NOT_SUPPORTED => 2
  | .DIRWATCHER_ACCESS_DENIED => 3
  | .DIRWATCHER_MEMORY_NOT_ENOUGH => 4
  | .DIRWATCHER_UNKNOWN_OS_ERROR => 5

/-- A `char*` returned by `malloc`: the identity of the heap block and the C string the
code stored in it (the bytes before the terminating NUL it writes). -/
structure CStr where
  block : Nat
  bytes : List Nat
deriving DecidableEq, Repr

/-- The struct `dirwatcher_event_info_t`; `name = none` is the `NULL` pointer. -/
structure dirwatcher_event_info_t where
  name : Option CStr
  event : dirwatcher_event_t
deriving DecidableEq, Repr

/-- An entry after `memset(.., 0, ..)`: `name = NULL`, `event = 0`. -/
def zero_event : dirwatcher_event_info_t :=
  { name := none, event := .DIRWATCHER_EVENT_NULL }

/-! ## The C heap -/

/-- The allocator state: the next fresh block and the blocks that are live. -/
structure Heap where
  next : Nat
  live : List Nat
deriving DecidableEq, Repr

/-- The call `malloc(size)`; `ok` is the allocator's decision for this call.  A failed
call returns `NULL` and leaves the heap as it was. -/
def malloc (ok : Bool) (_size : Nat) (h : Heap) : Option Nat × Heap :=
  if ok then (some h.next, { next := h.next + 1, live := h.next :: h.live })
  else (none, h)

/-- The call `free(p)`; `free(NULL)` does nothing. -/
def free (p : Option CStr) (h : Heap) : Heap :=
  match p with
  | none => h
  | some s => { h with live := h.live.erase s.block }

/-! ## Raw notification buffers -/

/-- The struct `FILE_NOTIFY_INFORMATION` seen through a pointer into the buffer.
`FileName` holds the wide characters stored from `FileName[0]` on; `FileNameLength` is
the length of the name in bytes. -/
structure FILE_NOTIFY_INFORMATION where
  NextEntryOffset : Nat
  Action : Nat
  FileNameLength : Nat
  FileName : List Nat
deriving DecidableEq, Repr

/-- A notification buffer of `size` bytes; `view p` is what a
`PFILE_NOTIFY_INFORMATION` at byte offset `p` of the buffer points to. -/
structure NotifyBuffer where
  size : Nat
  view : Nat → FILE_NOTIFY_INFORMATION

/-- Dereference a record pointer at byte offset `p`: defined when the fixed header
(three `DWORD`s, 12 bytes) lies inside the buffer. -/
def deref (buf : NotifyBuffer) (p : Nat) : Option FILE_NOTIFY_INFORMATION :=
  if p + 12 ≤ buf.size then some (buf.view p) else none

/-- The name of a record as the code reads it: `FileNameLength / sizeof(wchar_t)` wide
characters from `FileName`. -/
def record_name (r : FILE_NOTIFY_INFORMATION) : List Nat :=
  r.FileName.take (r.FileNameLength / 2)

/-- Win32 `WideCharToMultiByte(CP_UTF8, 0, wstr, wlen, buf, cap, NULL, FALSE)`, with the
UTF-8 encoder `utf8` of the platform as a parameter.  Returns the `int` result and the
bytes written to `buf`: zero input characters are an error (0); `cap = 0` only queries
the required size; an output that does not fit is an error (0). -/
def WideCharToMultiByte (utf8 : List Nat → List Nat) (wstr : List Nat) (wlen : Nat)
    (cap : Nat) : Nat × List Nat :=
  if wlen = 0 then (0, [])
  else if cap = 0 then ((utf8 (wstr.take wlen)).length, [])
  else if (utf8 (wstr.take wlen)).length ≤ cap then
    ((utf8 (wstr.take wlen)).length, utf8 (wstr.take wlen))
  else (0, [])

/-- Source lines 38-59.  Returns the `bool` result and the C string left in `buf`.  The
`NULL` guard is not modelled: the only caller passes the `FileName` array and a buffer it
has just checked to be non-`NULL`. -/
def _wstrn_to_cstr (utf8 : List Nat → List Nat) (wstrn : List Nat) (wlen : Nat)
    (buf_len : Nat) : Bool × List Nat :=
  let ret := WideCharToMultiByte utf8 wstrn wlen (buf_len - 1)
  if ret.1 = 0 then (false, []) else (true, ret.2)

/-- Source lines 61-64. -/
def _get_cstr_count_from_wstrn (utf8 : List Nat → List Nat) (wstrn : List Nat)
    (wcount : Nat) : Nat :=
  (WideCharToMultiByte utf8 wstrn wcount 0).1 + 1

/-- Source lines 66-82. -/
def _action_to_event (action : Nat) : dirwatcher_event_t :=
  if action = FILE_ACTION_ADDED then .DIRWATCHER_EVENT_ADDED
  else if action = FILE_ACTION_REMOVED then .DIRWATCHER_EVENT_REMOVED
  else if action = FILE_ACTION_MODIFIED then .DIRWATCHER_EVENT_MODIFIED
  else if action = FILE_ACTION_RENAMED_OLD_NAME then .DIRWATCHER_EVENT_RENAMED_FROM
  else if action = FILE_ACTION_RENAMED_NEW_NAME then .DIRWATCHER_EVENT_RENAMED_TO
  else .DIRWATCHER_EVENT_NULL

/-- Source lines 84-94.  Returns the `bool` result and the updated `*ppnotify`. -/
def _go_next_notify (buf : NotifyBuffer) (pnotify : Nat) : Option (Bool × Nat) :=
  match deref buf pnotify with
  | none => none
  | some r =>
    if r.NextEntryOffset = 0 then some (false, pnotify)
    else some (true, pnotify + r.NextEntryOffset)

/-- The `while` loop of `_get_notifies_count`.  Every iteration that continues moves the
pointer forward inside the buffer, so `buf.size` iterations always suffice. -/
def get_notifies_count_loop (buf : NotifyBuffer) : Nat → Nat → Nat → Option Nat
  | 0, _, _ => none
  | fuel + 1, pnotify, count =>
    match _go_next_notify buf pnotify with
    | none => none
    | some (false, _) => some count
    | some (true, next) => get_notifies_count_loop buf fuel next (count + 1)

/-- Source lines 96-106. -/
def _get_notifies_count (buf : NotifyBuffer) (pnotify : Nat) : Option Nat :=
  get_notifies_count_loop buf buf.size pnotify 1

/-- The call `memset(p_events_arr, 0, arr_size)`. -/
def memset_zero (arr : List dirwatcher_event_info_t) : List dirwatcher_event_info_t :=
  List.replicate arr.length zero_event

/-- Source lines 133-136: `for (j = 0; j < i; j++) free(p_events_arr[j].name)`. -/
def free_names (arr : List dirwatcher_event_info_t) (i : Nat) (heap : Heap) : Heap :=
  (List.range i).foldl (fun h j => free ((arr.get? j).bind (fun e => e.name)) h) heap

/-- The `for` loop of `_notifies_to_events` (source lines 125-151), with `todo` iterations
left before `i` reaches `events_arr_count`.  The result is `(false, ..)` when the loop
returned `false` from inside, `(true, ..)` when it ran to its end or left by `break`. -/
def notifies_to_events_loop (utf8 : List Nat → List Nat) (malloc_ok : Nat → Bool)
    (buf : NotifyBuffer) :
    Nat → Nat → Nat → List dirwatcher_event_info_t → Heap →
      Option (Bool × List dirwatcher_event_info_t × Heap)
  | 0, _, _, arr, heap => some (true, arr, heap)
  | todo + 1, i, pnotify, arr, heap =>
    match deref buf pnotify with
    | none => none
    | some r =>
      let name_len := _get_cstr_count_from_wstrn utf8 r.FileName (r.FileNameLength / 2)
      match malloc (malloc_ok i) name_len heap with
      | (none, heap1) => some (false, memset_zero arr, free_names arr i heap1)
      | (some block, heap1) =>
        let str := (_wstrn_to_cstr utf8 r.FileName (r.FileNameLength / 2) name_len).2
        let arr1 := arr.set i { name := some { block := block, bytes := str },
                                event := _action_to_event r.Action }
        match _go_next_notify buf pnotify with
        | none => none
        | some (false, _) => some (true, arr1, heap1)
        | some (true, next) =>
          notifies_to_events_loop utf8 malloc_ok buf todo (i + 1) next arr1 heap1

/-- What `_notifies_to_events` leaves behind: its `bool` result, the output array, the
cell `*p_events_count`, and the heap. -/
structure NotifiesResult where
  ret : Bool
  arr : Option (List dirwatcher_event_info_t)
  count : Option Nat
  heap : Heap
deriving DecidableEq, Repr

/-- Source lines 108-156.  The array is passed as the list of its entries, so
`arr_size / sizeof(dirwatcher_event_info_t)` is its length; `malloc_ok i` is the outcome
of the allocation made in iteration `i`. -/
def _notifies_to_events (utf8 : List Nat → List Nat) (malloc_ok : Nat → Bool)
    (buf : NotifyBuffer) (pnotify : Nat)
    (p_events_arr : Option (List dirwatcher_event_info_t))
    (p_events_count : Option Nat) (heap : Heap) : Option NotifiesResult :=
  match p_events_arr, p_events_count with
  | some arr, some _ =>
    let events_arr_count := arr.length
    match _get_notifies_count buf pnotify, _get_notifies_count buf pnotify with
    | some events_count, some _ =>
      match notifies_to_events_loop utf8 malloc_ok buf events_arr_count 0 pnotify
          (memset_zero arr) heap with
      | none => none
      | some (false, arr1, heap1) =>
        some { ret := false, arr := some arr1, count := some 0, heap := heap1 }
      | some (true, arr1, heap1) =>
        some { ret := true, arr := some arr1, count := some events_count, heap := heap1 }
    | _, _ => none
  | _, _ => some { ret := false, arr := p_events_arr, count := p_events_count, heap := heap }

/-- The `for` loop of `_cleanup_events`, with `todo` iterations left. -/
def cleanup_events_loop :
    Nat → Nat → List dirwatcher_event_info_t → Heap →
      Option (List dirwatcher_event_info_t × Heap)
  | 0, _, arr, heap => some (arr, heap)
  | todo + 1, i, arr, heap =>
    match arr.get? i with
    | none => none
    | some e =>
      cleanup_events_loop todo (i + 1) (arr.set i { e with name := none }) (free e.name heap)

/-- Source lines 158-165. -/
def _cleanup_events (p_events_arr : List dirwatcher_event_info_t) (events_count : Nat)
    (heap : Heap) : Option (List dirwatcher_event_info_t × Heap) :=
  cleanup_events_loop events_count 0 p_events_arr heap

/-! ## The target object and the lifecycle functions -/

def DIRWATCHER_TARGET_MAGIC_NUMBER : Nat := 0x4449525741544348

/-- The three kernel handles a target owns, by the name of the field that holds them. -/
inductive HandleName where
  | dir_handle
  | worker_thread_handle
  | worker_control_event
deriving DecidableEq, Repr

/-- The externally visible actions of the lifecycle functions, in program order: the
system calls on the handles, the stores to `exit_flag` and `magic`, and the final
`free(target)`. -/
inductive OsCall where
  | ResetEvent (h : HandleName)
  | SetEvent (h : HandleName)
  | CancelIoEx (h : HandleName)
  | WaitForSingleObject (h : HandleName)
  | CloseHandle (h : HandleName)
  | InterlockedExchange_exit_flag (v : Int)
  | store_magic (v : Nat)
  | free_target
deriving DecidableEq, Repr

/-- The struct `_dirwatcher_target_impl_t` (source lines 14-34) as the memory a target
pointer refers to.  The handle fields are written once at creation and appear by name in
the `OsCall`s; `worker_control_event` records the state of the manual-reset event
(`true`: set, run; `false`: reset, hold).  A callback is the address of a function,
`none` being `NULL`. -/
structure _dirwatcher_target_impl_t where
  magic : Nat
  worker_control_event : Bool
  exit_flag : Int
  error_code : Int
  callback : Option Nat
deriving DecidableEq, Repr

/-- What a lifecycle call leaves behind: its return value, the memory the target pointer
refers to (`none` for the `NULL` pointer), and the system calls it made, in order. -/
structure ApiResult (α : Type) where
  ret : α
  target : Option _dirwatcher_target_impl_t
  calls : List OsCall

/-- Source lines 286-289. -/
def _is_valid_target_ptr (target : Option _dirwatcher_target_impl_t) : Bool :=
  match target with
  | none => false
  | some t => t.magic == DIRWATCHER_TARGET_MAGIC_NUMBER

/-- Source lines 337-376.  The returned struct is the memory as it is when it is freed. -/
def _delete_target (t : _dirwatcher_target_impl_t) :
    _dirwatcher_target_impl_t × List OsCall :=
  let t1 := { t with worker_control_event := false }
  let t2 := { t1 with exit_flag := 1 }
  let t3 := { t2 with worker_control_event := true }
  let t4 := { t3 with magic := 0 }
  (t4, [.ResetEvent .worker_control_event,
        .InterlockedExchange_exit_flag 1,
        .CancelIoEx .dir_handle,
        .SetEvent .worker_control_event,
        .WaitForSingleObject .worker_thread_handle,
        .CloseHandle .dir_handle,
        .CloseHandle .worker_thread_handle,
        .CloseHandle .worker_control_event,
        .store_magic 0,
        .free_target])

/-- Source lines 378-382. -/
def _pause_target (t : _dirwatcher_target_impl_t) :
    _dirwatcher_target_impl_t × List OsCall :=
  ({ t with worker_control_event := false },
   [.ResetEvent .worker_control_event, .CancelIoEx .dir_handle])

/-- Source lines 384-387. -/
def _resume_target (t : _dirwatcher_target_impl_t) :
    _dirwatcher_target_impl_t × List OsCall :=
  ({ t with worker_control_event := true }, [.SetEvent .worker_control_event])

/-- Source lines 405-416. -/
def dirwatcher_close_target (target : Option _dirwatcher_target_impl_t) : ApiResult Bool :=
  match target with
  | some t =>
    if _is_valid_target_ptr target then
      { ret := true, target := some (_delete_target t).1, calls := (_delete_target t).2 }
    else { ret := false, target := target, calls := [] }
  | none => { ret := false, target := target, calls := [] }

/-- Source lines 418-434 (the callback is stored under the exclusive lock). -/
def dirwatcher_set_target_callback (target : Option _dirwatcher_target_impl_t)
    (callback : Option Nat) : ApiResult Bool :=
  match target with
  | some t =>
    if _is_valid_target_ptr target then
      { ret := true, target := some { t with callback := callback }, calls := [] }
    else { ret := false, target := target, calls := [] }
  | none => { ret := false, target := target, calls := [] }

/-- Source lines 436-447. -/
def dirwatcher_start_watch_target (target : Option _dirwatcher_target_impl_t) :
    ApiResult Bool :=
  match target with
  | some t =>
    if _is_valid_target_ptr target then
      { ret := true, target := some (_resume_target t).1, calls := (_resume_target t).2 }
    else { ret := false, target := target, calls := [] }
  | none => { ret := false, target := target, calls := [] }

/-- Source lines 449-460. -/
def dirwatcher_stop_watch_target (target : Option _dirwatcher_target_impl_t) :
    ApiResult Bool :=
  match target with
  | some t =>
    if _is_valid_target_ptr target then
      { ret := true, target := some (_pause_target t).1, calls := (_pause_target t).2 }
    else { ret := false, target := target, calls := [] }
  | none => { ret := false, target := target, calls := [] }

/-- Source lines 462-486. -/
def dirwatcher_get_target_error (target : Option _dirwatcher_target_impl_t) :
    ApiResult dirwatcher_error_t :=
  match target with
  | some t =>
    if !_is_valid_target_ptr target then
      { ret := .DIRWATCHER_INVALID_TARGET, target := target, calls := [] }
    else if t.error_code = ERROR_ACCESS_DENIED then
      { ret := .DIRWATCHER_ACCESS_DENIED, target := target, calls := [] }
    else if t.error_code = ERROR_NOT_ENOUGH_MEMORY ∨ t.error_code = ERROR_OUTOFMEMORY
        ∨ t.error_code = ERROR_TOO_MANY_OPEN_FILES then
      { ret := .DIRWATCHER_MEMORY_NOT_ENOUGH, target := target, calls := [] }
    else if t.error_code = ERROR_INVALID_FUNCTION then
      { ret := .DIRWATCHER_TARGET_NOT_SUPPORTED, target := target, calls := [] }
    else if t.error_code = ERROR_INVALID_PARAMETER ∨ t.error_code = ERROR_NOACCESS
        ∨ t.error_code = ERROR_NOTIFY_ENUM_DIR then
      { ret := .DIRWATCHER_UNKNOWN_INTERNAL_ERROR, target := target, calls := [] }
    else { ret := .DIRWATCHER_UNKNOWN_OS_ERROR, target := target, calls := [] }
  | none => { ret := .DIRWATCHER_INVALID_TARGET, target := target, calls := [] }

/-- Source lines 488-496; the result is a `long`. -/
def dirwatcher_get_target_win32_error (target : Option _dirwatcher_target_impl_t) :
    ApiResult Int :=
  match target with
  | some t =>
    if !_is_valid_target_ptr target then
      { ret := dirwatcher_error_t.DIRWATCHER_INVALID_TARGET.toInt, target := target, calls := [] }
    else { ret := t.error_code, target := target, calls := [] }
  | none =>
    { ret := dirwatcher_error_t.DIRWATCHER_INVALID_TARGET.toInt, target := target, calls := [] }

/-- The target right after `_create_target` (source lines 291-335): the event is created
non-signalled, flag, error code and callback are zero. -/
def created_target : _dirwatcher_target_impl_t :=
  { magic := DIRWATCHER_TARGET_MAGIC_NUMBER, worker_control_event := false,
    exit_flag := 0, error_code := 0, callback := none }

/-! ## The worker thread -/

/-- One invocation `cb(event_info)` made by the worker: the function called and its
argument (`none` is the `NULL` event that reports a worker error). -/
structure CallbackCall where
  fn : Nat
  event_info : Option dirwatcher_event_info_t
deriving DecidableEq, Repr

/-- The `DWORD → LONG` conversion applied when a `DWORD` is passed to
`InterlockedExchange`. -/
def toLONG (x : Nat) : Int :=
  if x % 2 ^ 32 < 2 ^ 31 then ((x % 2 ^ 32 : Nat) : Int)
  else ((x % 2 ^ 32 : Nat) : Int) - 2 ^ 32

/-- Where the worker is in `_worker_thread_routine` (source lines 182-256). -/
inductive WorkerPc where
  /-- Blocked in `WaitForSingleObject(worker_control_event)`, line 188. -/
  | wait_enable
  /-- About to test `exit_flag`, line 191. -/
  | check_exit
  /-- Blocked inside `ReadDirectoryChangesW`, line 200. -/
  | read_changes
  /-- The call has returned; about to read `target->callback`, lines 216-218. -/
  | get_callback
  /-- At `if (success)`, line 220. -/
  | handle_result
  /-- About to store `error_code`, line 249. -/
  | store_error
  /-- About to store `exit_flag`, line 250. -/
  | store_exit
  /-- At `if (cb) cb(NULL)`, line 251. -/
  | call_null
  /-- The thread function has returned `code`. -/
  | returned (code : Nat)
deriving DecidableEq, Repr

/-- The local variables of `_worker_thread_routine` (source lines 174-180), and the
last-error value of the worker thread. -/
structure WorkerLocals where
  events : List dirwatcher_event_info_t
  events_count : Nat
  notify_buffer : Nat → FILE_NOTIFY_INFORMATION
  success : Bool
  cb : Option Nat
  last_error : Nat

/-- The size of `notify_buffer`, in bytes. -/
def NOTIFY_BUFFER_SIZE : Nat := 4096

/-- The number of entries of `events`. -/
def EVENTS_CAPACITY : Nat := 256

/-- Source lines 228-231: `for (i = 0; i < events_count; i++) if (cb) cb(&events[i]);`
with `todo` iterations left.  The calls are returned in the order they are made. -/
def dispatch_loop (cb : Option Nat) (events : List dirwatcher_event_info_t) :
    Nat → Nat → Option (List CallbackCall)
  | 0, _ => some []
  | todo + 1, i =>
    match cb with
    | none => dispatch_loop cb events todo (i + 1)
    | some f =>
      match events.get? i with
      | none => none
      | some e =>
        match dispatch_loop cb events todo (i + 1) with
        | none => none
        | some calls => some ({ fn := f, event_info := some e } :: calls)

/-- The target together with its worker thread and the process heap. -/
structure Sys where
  target : _dirwatcher_target_impl_t
  pc : WorkerPc
  locals : WorkerLocals
  heap : Heap

/-- Source lines 220-238, the `success` branch: translate, dispatch, clean up. -/
def worker_handle_success (utf8 : List Nat → List Nat) (malloc_ok : Nat → Bool)
    (l : WorkerLocals) (heap : Heap) : Option (WorkerLocals × Heap × List CallbackCall) :=
  match _notifies_to_events utf8 malloc_ok
      { size := NOTIFY_BUFFER_SIZE, view := l.notify_buffer } 0
      (some l.events) (some l.events_count) heap with
  | none => none
  | some r =>
    let events := r.arr.getD l.events
    let events_count := r.count.getD l.events_count
    match dispatch_loop l.cb events events_count 0 with
    | none => none
    | some calls =>
      match _cleanup_events events events_count r.heap with
      | none => none
      | some (events1, heap1) =>
        some ({ l with events := events1, events_count := events_count }, heap1, calls)

/-- One step of the worker thread; `malloc_ok` gives the outcomes of the allocations the
step makes.  The result is `none` when the worker cannot move (it is blocked in a wait or
in the notification call, or has returned) or when the step leaves the `events` array.
Handling one batch (translate, dispatch, clean up) is a single step: it reads and writes
only the locals of the worker and the heap. -/
def worker_step (utf8 : List Nat → List Nat) (malloc_ok : Nat → Bool) (s : Sys) :
    Option (Sys × List CallbackCall) :=
  match s.pc with
  | .wait_enable =>
    if s.target.worker_control_event then some ({ s with pc := .check_exit }, []) else none
  | .check_exit =>
    if s.target.exit_flag ≠ 0 then some ({ s with pc := .returned 0 }, [])
    else some ({ s with pc := .read_changes }, [])
  | .read_changes => none
  | .get_callback =>
    some ({ s with pc := .handle_result, locals := { s.locals with cb := s.target.callback } }, [])
  | .handle_result =>
    if s.locals.success then
      match worker_handle_success utf8 malloc_ok s.locals s.heap with
      | none => none
      | some (l, heap, calls) =>
        some ({ s with pc := .wait_enable, locals := l, heap := heap }, calls)
    else if s.locals.last_error = ERROR_OPERATION_ABORTED then
      some ({ s with pc := .wait_enable }, [])
    else some ({ s with pc := .store_error }, [])
  | .store_error =>
    some ({ s with pc := .store_exit,
                   target := { s.target with error_code := toLONG s.locals.last_error } }, [])
  | .store_exit =>
    some ({ s with pc := .call_null, target := { s.target with exit_flag := 1 } }, [])
  | .call_null =>
    match s.locals.cb with
    | some f => some ({ s with pc := .returned 4294967295 }, [{ fn := f, event_info := none }])
    | none => some ({ s with pc := .returned 4294967295 }, [])
  | .returned _ => none

/-- How a pending `ReadDirectoryChangesW` returns: with `TRUE` and the buffer contents it
leaves, or with `FALSE` and the thread's last-error code. -/
inductive ReadOutcome where
  | success (notify_buffer : Nat → FILE_NOTIFY_INFORMATION)
  | failure (last_error : Nat)

/-- The pending notification call of the worker returns. -/
def io_complete (r : ReadOutcome) (s : Sys) : Option Sys :=
  match s.pc with
  | .read_changes =>
    match r with
    | .success b =>
      some { s with pc := .get_callback,
                    locals := { s.locals with success := true, notify_buffer := b } }
    | .failure e =>
      some { s with pc := .get_callback,
                    locals := { s.locals with success := false, last_error := e % 2 ^ 32 } }
  | _ => none

/-- The effect on the worker of the system calls another thread has made:
`CancelIoEx(dir_handle)` makes a pending notification call return `FALSE` with
`ERROR_OPERATION_ABORTED`; with no call pending it does nothing. -/
def apply_calls (calls : List OsCall) (s : Sys) : Sys :=
  if OsCall.CancelIoEx .dir_handle ∈ calls ∧ s.pc = .read_changes then
    { s with pc := .get_callback,
             locals := { s.locals with success := false, last_error := ERROR_OPERATION_ABORTED } }
  else s

/-- A lifecycle call on the target of `s`, made by a thread other than the worker. -/
def api_step {α : Type} (r : ApiResult α) (s : Sys) : Sys :=
  apply_calls r.calls { s with target := r.target.getD s.target }

/-- What can happen next to a live target: a lifecycle call returns, the worker makes a
step, or the kernel completes the pending notification call. -/
inductive Action where
  | set_callback (callback : Option Nat)
  | start_watch
  | stop_watch
  | get_error
  | get_win32_error
  | worker (malloc_ok : Nat → Bool)
  | io (r : ReadOutcome)

/-- One step of the system; the calls are the callback invocations made in the step. -/
def step (utf8 : List Nat → List Nat) (s : Sys) : Action → Option (Sys × List CallbackCall)
  | .set_callback cb => some (api_step (dirwatcher_set_target_callback (some s.target) cb) s, [])
  | .start_watch => some (api_step (dirwatcher_start_watch_target (some s.target)) s, [])
  | .stop_watch => some (api_step (dirwatcher_stop_watch_target (some s.target)) s, [])
  | .get_error => some (api_step (dirwatcher_get_target_error (some s.target)) s, [])
  | .get_win32_error => some (api_step (dirwatcher_get_target_win32_error (some s.target)) s, [])
  | .worker malloc_ok => worker_step utf8 malloc_ok s
  | .io r => (io_complete r s).map (fun s1 => (s1, []))

/-- Run a schedule; the calls are all callback invocations made, in order. -/
def run (utf8 : List Nat → List Nat) (s : Sys) : List Action → Option (Sys × List CallbackCall)
  | [] => some (s, [])
  | a :: rest =>
    match step utf8 s a with
    | none => none
    | some (s1, calls1) =>
      match run utf8 s1 rest with
      | none => none
      | some (s2, calls2) => some (s2, calls1 ++ calls2)

/-- A buffer whose every record view is zero, as `notify_buffer` is initialised. -/
def zero_buffer : Nat → FILE_NOTIFY_INFORMATION :=
  fun _ => { NextEntryOffset := 0, Action := 0, FileNameLength := 0, FileName := [] }

/-- The system right after `dirwatcher_open_target` has succeeded: the worker has been
created and is about to wait for the control event, its locals as initialised. -/
def init (heap : Heap) : Sys :=
  { target := created_target,
    pc := .wait_enable,
    locals := { events := List.replicate EVENTS_CAPACITY zero_event, events_count := 0,
                notify_buffer := zero_buffer, success := true, cb := none, last_error := 0 },
    heap := heap }

/-- The states a live target and its worker can reach. -/
inductive Reachable (utf8 : List Nat → List Nat) : Sys → Prop where
  | init (heap : Heap) : Reachable utf8 (init heap)
  | step {s s1 : Sys} {calls : List CallbackCall} (a : Action) :
      Reachable utf8 s → step utf8 s a = some (s1, calls) → Reachable utf8 s1

/-! ## Specification-side notions -/

/-- The record chain that starts at byte offset `p` of `buf`: the records reached by
following `NextEntryOffset` until a record has none, all read inside the buffer. -/
inductive Chain (buf : NotifyBuffer) : Nat → List FILE_NOTIFY_INFORMATION → Prop where
  | last {p : Nat} {r : FILE_NOTIFY_INFORMATION} :
      deref buf p = some r → r.NextEntryOffset = 0 → Chain buf p [r]
  | next {p : Nat} {r : FILE_NOTIFY_INFORMATION} {rs : List FILE_NOTIFY_INFORMATION} :
      deref buf p = some r → r.NextEntryOffset ≠ 0 →
      Chain buf (p + r.NextEntryOffset) rs → Chain buf p (r :: rs)

/-- What a callback can see of an event: its name as a string, and its kind. -/
def event_view (e : dirwatcher_event_info_t) : Option (List Nat) × dirwatcher_event_t :=
  (e.name.map (fun s => s.bytes), e.event)

/-- The event a record is translated to, as a callback sees it. -/
def record_view (utf8 : List Nat → List Nat) (r : FILE_NOTIFY_INFORMATION) :
    Option (List Nat) × dirwatcher_event_t :=
  (some (utf8 (record_name r)), _action_to_event r.Action)

/-- A sequence of `dirwatcher_start_watch_target` (`true`) and
`dirwatcher_stop_watch_target` (`false`) calls on one target pointer: the values returned,
and the target afterwards. -/
def watch_calls : List Bool → Option _dirwatcher_target_impl_t →
    List Bool × Option _dirwatcher_target_impl_t
  | [], target => ([], target)
  | true :: ops, target =>
    let r := dirwatcher_start_watch_target target
    ((r.ret :: (watch_calls ops r.target).1), (watch_calls ops r.target).2)
  | false :: ops, target =>
    let r := dirwatcher_stop_watch_target target
    ((r.ret :: (watch_calls ops r.target).1), (watch_calls ops r.target).2)

/-- The array entry `_notifies_to_events` writes for record `r` when `malloc` has
returned `block` for its name. -/
def mk_entry (utf8 : List Nat → List Nat) (block : Nat) (r : FILE_NOTIFY_INFORMATION) :
    dirwatcher_event_info_t :=
  { name := some { block := block, bytes := utf8 (record_name r) },
    event := _action_to_event r.Action }

/-- The array after the records `rs` have been written, one after the other, from index
`i` on, their names in the consecutive blocks `b`, `b + 1`, ... -/
def fill (utf8 : List Nat → List Nat) :
    List FILE_NOTIFY_INFORMATION → Nat → Nat → List dirwatcher_event_info_t →
      List dirwatcher_event_info_t
  | [], _, _, arr => arr
  | r :: rs, i, b, arr => fill utf8 rs (i + 1) (b + 1) (arr.set i (mk_entry utf8 b r))

/-- The heap after `m` successful calls of `malloc`. -/
def heap_after : Nat → Heap → Heap
  | 0, h => h
  | m + 1, h => heap_after m { next := h.next + 1, live := h.next :: h.live }

/-- The blocks `b + m - 1, ..., b + 1, b`. -/
def revblocks : Nat → Nat → List Nat
  | _, 0 => []
  | b, m + 1 => revblocks (b + 1) m ++ [b]

/-- Free the pointers of a list, first to last. -/
def free_all (ps : List (Option CStr)) (h : Heap) : Heap :=
  ps.foldl (fun h p => free p h) h

/-- What a callback invocation shows: the function called and the event as it sees it. -/
def call_view (c : CallbackCall) :
    Nat × Option (Option (List Nat) × dirwatcher_event_t) :=
  (c.fn, c.event_info.map event_view)

/-- The actions that are lifecycle calls of other threads. -/
def Action.is_api_call : Action → Bool
  | .set_callback _ => true
  | .start_watch => true
  | .stop_watch => true
  | .get_error => true
  | .get_win32_error => true
  | .worker _ => false
  | .io _ => false

/-- A sample batch: `a` added (at offset 0), then `bc` removed (at offset 16). -/
def sample_buffer : Nat → FILE_NOTIFY_INFORMATION := fun p =>
  if p = 0 then { NextEntryOffset := 16, Action := 1, FileNameLength := 2, FileName := [97] }
  else if p = 16 then
    { NextEntryOffset := 0, Action := 2, FileNameLength := 4, FileName := [98, 99] }
  else zero_buffer p

/-- The two records of `sample_buffer`. -/
def sample_records : List FILE_NOTIFY_INFORMATION :=
  [{ NextEntryOffset := 16, Action := 1, FileNameLength := 2, FileName := [97] },
   { NextEntryOffset := 0, Action := 2, FileNameLength := 4, FileName := [98, 99] }]

/-- The UTF-8 encoder on ASCII text, where it is the identity. -/
def ascii (ws : List Nat) : List Nat := ws

/-- A worker that has just come back from a successful notification call that left
`sample_buffer`, with the callback at address 7 in its snapshot. -/
def sample_state : Sys :=
  { target := { created_target with worker_control_event := true, callback := some 7 },
    pc := .handle_result,
    locals := { events := List.replicate EVENTS_CAPACITY zero_event, events_count := 0,
                notify_buffer := sample_buffer, success := true, cb := some 7,
                last_error := 0 },
    heap := { next := 0, live := [] } }

/-- The places of the worker that come after the store to `error_code` (line 249), or
after its return. -/
def WorkerPc.after_store_error : WorkerPc → Bool
  | .store_exit => true
  | .call_null => true
  | .returned _ => true
  | _ => false

/-- What holds of every reachable state: the target stays valid; `error_code` is never the
cancellation code; the worker's last-error value is a `DWORD`, and is not the cancellation
code when the worker is about to store it; and `error_code` is non-zero only once the
worker is past the store. -/
def worker_inv (s : Sys) : Prop :=
  s.target.magic = DIRWATCHER_TARGET_MAGIC_NUMBER ∧
  s.target.error_code ≠ (ERROR_OPERATION_ABORTED : Int) ∧
  s.locals.last_error < 2 ^ 32 ∧
  (s.pc = .store_error → s.locals.last_error ≠ ERROR_OPERATION_ABORTED) ∧
  (s.target.error_code ≠ 0 → s.pc.after_store_error = true)

/-- A worker whose notification call has just been cancelled by
`dirwatcher_stop_watch_target`: the call has returned `FALSE` with
`ERROR_OPERATION_ABORTED`. -/
def cancelled_state : Sys :=
  { target := { created_target with callback := some 7 },
    pc := .get_callback,
    locals := { events := List.replicate EVENTS_CAPACITY zero_event, events_count := 0,
                notify_buffer := zero_buffer, success := false, cb := none,
                last_error := ERROR_OPERATION_ABORTED },
    heap := { next := 0, live := [] } }

/-- A schedule that ends in a fatal error: start, the worker wakes and issues the
notification call, the call fails with `ERROR_ACCESS_DENIED` (5), and the worker records
the error. -/
def fatal_schedule : List Action :=
  [.set_callback (some 7), .start_watch, .worker (fun _ => true), .worker (fun _ => true),
   .io (.failure 5), .worker (fun _ => true), .worker (fun _ => true),
   .worker (fun _ => true)]

/-- The state `fatal_schedule` leads to from the initial state: the worker has stored the
error code 5 and is about to set the exit flag. -/
def fatal_state : Sys :=
  { target := { created_target with worker_control_event := true, error_code := 5,
                                    callback := some 7 },
    pc := .store_exit,
    locals := { events := List.replicate EVENTS_CAPACITY zero_event, events_count := 0,
                notify_buffer := zero_buffer, success := false, cb := some 7,
                last_error := 5 },
    heap := { next := 0, live := [] } }

/-- What follows `fatal_schedule` in the sample run: the worker finishes its error exit
while other threads stop, query, start and clear the callback. -/
def after_fatal_schedule : List Action :=
  [.worker (fun _ => true), .stop_watch, .worker (fun _ => true), .get_win32_error,
   .start_watch, .set_callback none]

/-- The state `after_fatal_schedule` leads to from `fatal_state`. -/
def after_fatal_state : Sys :=
  { target := { created_target with worker_control_event := true, exit_flag := 1,
                                    error_code := 5, callback := none },
    pc := .returned 4294967295,
    locals := { events := List.replicate EVENTS_CAPACITY zero_event, events_count := 0,
                notify_buffer := zero_buffer, success := false, cb := some 7,
                last_error := 5 },
    heap := { next := 0, live := [] } }

/-- A worker whose notification call has just failed with `ERROR_ACCESS_DENIED` (5), the
callback snapshot `cb` taken. -/
def failed_state (cb : Option Nat) : Sys :=
  { target := { created_target with worker_control_event := true, callback := cb },
    pc := .handle_result,
    locals := { events := List.replicate EVENTS_CAPACITY zero_event, events_count := 0,
                notify_buffer := zero_buffer, success := false, cb := cb, last_error := 5 },
    heap := { next := 0, live := [] } }

/-- The invocation the worker makes on its error exit with the snapshot `cb`:
`if (cb) cb(NULL)`. -/
def null_call (cb : Option Nat) : List CallbackCall :=
  match cb with
  | some f => [{ fn := f, event_info := none }]
  | none => []

/-- The worker is on its error exit (source lines 241-252) for the last-error value `e`
with the callback snapshot `cb`, and `left` are the invocations it has still to make. -/
def on_error_exit (e : Nat) (cb : Option Nat) (s : Sys) (left : List CallbackCall) : Prop :=
  match s.pc with
  | .handle_result =>
    s.locals.success = false ∧ s.locals.last_error = e ∧ s.locals.cb = cb ∧ left = null_call cb
  | .store_error => s.locals.last_error = e ∧ s.locals.cb = cb ∧ left = null_call cb
  | .store_exit => s.target.error_code = toLONG e ∧ s.locals.cb = cb ∧ left = null_call cb
  | .call_null =>
    s.target.error_code = toLONG e ∧ s.target.exit_flag = 1 ∧ s.locals.cb = cb ∧
      left = null_call cb
  | .returned _ => s.target.error_code = toLONG e ∧ s.target.exit_flag = 1 ∧ left = []
  | _ => False

/-- A schedule in which `dirwatcher_stop_watch_target` returns after the notification
call has returned with `sample_buffer` and before the worker has handled it. -/
def stop_after_read_schedule : List Action :=
  [.set_callback (some 7), .start_watch, .worker (fun _ => true), .worker (fun _ => true),
   .io (.success sample_buffer), .stop_watch]

/-- The state `stop_after_read_schedule` leads to from the initial state. -/
def stopped_state : Sys :=
  { target := { created_target with worker_control_event := false, callback := some 7 },
    pc := .get_callback,
    locals := { events := List.replicate EVENTS_CAPACITY zero_event, events_count := 0,
                notify_buffer := sample_buffer, success := true, cb := none,
                last_error := 0 },
    heap := { next := 0, live := [] } }

/-- A schedule in which `dirwatcher_stop_watch_target` returns after the worker has woken
from its wait and before it has issued the notification call. -/
def stop_before_read_schedule : List Action :=
  [.set_callback (some 7), .start_watch, .worker (fun _ => true), .stop_watch,
   .worker (fun _ => true), .io (.success sample_buffer)]

/-- A call of `dirwatcher_close_target` in progress on the target of `sys`: the actions
of `_delete_target` it has still to perform, in order, the handles it has closed so far,
and whether it has freed the target. -/
structure Closing where
  sys : Sys
  todo : List OsCall
  closed : List HandleName
  freed : Bool

/-- The effect of one action of a lifecycle thread on the system.  The result is `none`
while the action blocks: `WaitForSingleObject(worker_thread_handle, INFINITE)` returns
only once the thread function of the worker has returned, a wait on the control event
only while the event is set (no lifecycle function waits on the directory handle). -/
def perform (c : OsCall) (s : Sys) : Option Sys :=
  match c with
  | .ResetEvent _ => some { s with target := { s.target with worker_control_event := false } }
  | .SetEvent _ => some { s with target := { s.target with worker_control_event := true } }
  | .CancelIoEx h => some (apply_calls [.CancelIoEx h] s)
  | .WaitForSingleObject .worker_thread_handle =>
    match s.pc with
    | .returned _ => some s
    | _ => none
  | .WaitForSingleObject .worker_control_event =>
    if s.target.worker_control_event then some s else none
  | .WaitForSingleObject .dir_handle => none
  | .CloseHandle _ => some s
  | .InterlockedExchange_exit_flag v => some { s with target := { s.target with exit_flag := v } }
  | .store_magic v => some { s with target := { s.target with magic := v } }
  | .free_target => some s

/-- What can happen next while a close is in progress: the closing thread performs its
next action, or something else happens (a worker step, the completion of the pending
notification call, a lifecycle call of a third thread). -/
inductive ClosingAction where
  | caller
  | other (a : Action)

/-- One step of a close in progress. -/
def closing_step (utf8 : List Nat → List Nat) (c : Closing) :
    ClosingAction → Option (Closing × List CallbackCall)
  | .caller =>
    match c.todo with
    | [] => none
    | e :: rest =>
      match perform e c.sys with
      | none => none
      | some s1 =>
        some ({ sys := s1, todo := rest,
                closed := (match e with
                           | .CloseHandle h => h :: c.closed
                           | _ => c.closed),
                freed := (match e with
                          | .free_target => true
                          | _ => c.freed) }, [])
  | .other a =>
    match step utf8 c.sys a with
    | none => none
    | some (s1, calls) => some ({ c with sys := s1 }, calls)

/-- Run a schedule of a close in progress. -/
def closing_run (utf8 : List Nat → List Nat) (c : Closing) :
    List ClosingAction → Option (Closing × List CallbackCall)
  | [] => some (c, [])
  | a :: rest =>
    match closing_step utf8 c a with
    | none => none
    | some (c1, calls1) =>
      match closing_run utf8 c1 rest with
      | none => none
      | some (c2, calls2) => some (c2, calls1 ++ calls2)

/-- The moment `dirwatcher_close_target` is entered on the target of `s`. -/
def closing_start (s : Sys) : Closing :=
  { sys := s, todo := (dirwatcher_close_target (some s.target)).calls, closed := [],
    freed := false }

/-- The actions of `_delete_target`, in program order (source lines 343-375). -/
def delete_target_calls : List OsCall :=
  [.ResetEvent .worker_control_event,
   .InterlockedExchange_exit_flag 1,
   .CancelIoEx .dir_handle,
   .SetEvent .worker_control_event,
   .WaitForSingleObject .worker_thread_handle,
   .CloseHandle .dir_handle,
   .CloseHandle .worker_thread_handle,
   .CloseHandle .worker_control_event,
   .store_magic 0,
   .free_target]

/-- What holds throughout a close: `k` of the ten actions are done; nothing is closed or
freed until the wait for the worker (the fifth action) is over, and from then on the
thread function of the worker has returned. -/
def closing_inv (c : Closing) : Prop :=
  ∃ k, c.todo = delete_target_calls.drop k ∧
    (k ≤ 5 → c.closed = [] ∧ c.freed = false) ∧
    (5 ≤ k → ∃ code, c.sys.pc = .returned code)

/-- A started target whose worker is blocked in the notification call. -/
def watching_state : Sys :=
  { target := { created_target with worker_control_event := true, callback := some 7 },
    pc := .read_changes,
    locals := { events := List.replicate EVENTS_CAPACITY zero_event, events_count := 0,
                notify_buffer := zero_buffer, success := true, cb := none, last_error := 0 },
    heap := { next := 0, live := [] } }

/-- A complete close of `watching_state`: the caller resets the event, sets the exit
flag, cancels the pending call and sets the event; the worker comes back from the
cancelled call, returns to the wait, wakes, sees the exit flag and returns; the caller's
wait is over and it releases everything. -/
def close_schedule : List ClosingAction :=
  [.caller, .caller, .caller, .caller,
   .other (.worker (fun _ => true)), .other (.worker (fun _ => true)),
   .other (.worker (fun _ => true)), .other (.worker (fun _ => true)),
   .caller, .caller, .caller, .caller, .caller, .caller]

/-- The state `close_schedule` leads to from `watching_state`. -/
def closed_state : Closing :=
  { sys := { target := { magic := 0, worker_control_event := true, exit_flag := 1,
                         error_code := 0, callback := some 7 },
             pc := .returned 0,
             locals := { events := List.replicate EVENTS_CAPACITY zero_event,
                         events_count := 0, notify_buffer := zero_buffer, success := false,
                         cb := some 7, last_error := ERROR_OPERATION_ABORTED },
             heap := { next := 0, live := [] } },
    todo := [],
    closed := [.worker_control_event, .worker_thread_handle, .dir_handle],
    freed := true }

/-- The state after `dirwatcher_set_target_callback(target, 7)`, a start, and a
notification call that has returned with `sample_buffer`. -/
def started_state : Sys :=
  { target := { created_target with worker_control_event := true, callback := some 7 },
    pc := .get_callback,
    locals := { events := List.replicate EVENTS_CAPACITY zero_event, events_count := 0,
                notify_buffer := sample_buffer, success := true, cb := none,
                last_error := 0 },
    heap := { next := 0, live := [] } }

/-! ## Lifecycle functions: validation, error mapping, start and stop -/

theorem valid_of_magic (t : _dirwatcher_target_impl_t)
    (h : t.magic = DIRWATCHER_TARGET_MAGIC_NUMBER) : _is_valid_target_ptr (some t) = true := by
  simp [_is_valid_target_ptr, h]

theorem invalid_of_magic (t : _dirwatcher_target_impl_t)
    (h : t.magic ≠ DIRWATCHER_TARGET_MAGIC_NUMBER) : _is_valid_target_ptr (some t) = false := by
  simp [_is_valid_target_ptr, h]

/-- C1: on a target pointer that is `NULL` or whose `magic` differs from the magic number,
close, set-callback, start and stop return `false`, `dirwatcher_get_target_error` returns
`DIRWATCHER_INVALID_TARGET` (-1), `dirwatcher_get_target_win32_error` returns -1, and each
of them leaves the memory behind the pointer as it was and makes no system call. -/
theorem invalid_target_rejected (target : Option _dirwatcher_target_impl_t)
    (callback : Option Nat)
    (h : ∀ t, target = some t → t.magic ≠ DIRWATCHER_TARGET_MAGIC_NUMBER) :
    dirwatcher_close_target target = { ret := false, target := target, calls := [] } ∧
    dirwatcher_set_target_callback target callback
      = { ret := false, target := target, calls := [] } ∧
    dirwatcher_start_watch_target target = { ret := false, target := target, calls := [] } ∧
    dirwatcher_stop_watch_target target = { ret := false, target := target, calls := [] } ∧
    dirwatcher_get_target_error target
      = { ret := .DIRWATCHER_INVALID_TARGET, target := target, calls := [] } ∧
    dirwatcher_error_t.DIRWATCHER_INVALID_TARGET.toInt = -1 ∧
    dirwatcher_get_target_win32_error target = { ret := -1, target := target, calls := [] } := by
  cases target with
  | none =>
    simp [dirwatcher_close_target, dirwatcher_set_target_callback,
      dirwatcher_start_watch_target, dirwatcher_stop_watch_target,
      dirwatcher_get_target_error, dirwatcher_get_target_win32_error,
      dirwatcher_error_t.toInt]
  | some t =>
    have hv := invalid_of_magic t (h t rfl)
    simp [dirwatcher_close_target, dirwatcher_set_target_callback,
      dirwatcher_start_watch_target, dirwatcher_stop_watch_target,
      dirwatcher_get_target_error, dirwatcher_get_target_win32_error,
      dirwatcher_error_t.toInt, hv]

theorem invalid_target_rejected_witness :
    (∀ t, some { created_target with magic := 0 } = some t →
        t.magic ≠ DIRWATCHER_TARGET_MAGIC_NUMBER) ∧
    (dirwatcher_stop_watch_target (some { created_target with magic := 0 })).ret = false ∧
    (dirwatcher_get_target_win32_error (some { created_target with magic := 0 })).ret = -1 :=
  have h : ∀ t, some { created_target with magic := 0 } = some t →
      t.magic ≠ DIRWATCHER_TARGET_MAGIC_NUMBER := by
    intro t ht
    cases ht
    decide
  ⟨h,
   by rw [(invalid_target_rejected (some { created_target with magic := 0 }) none h).2.2.2.1],
   by rw [(invalid_target_rejected (some { created_target with magic := 0 }) none h).2.2.2.2.2.2]⟩

/-- C2 (what the code does): on a valid target whose `error_code` is 0 - a freshly
created one, or any other state of the remaining fields - `dirwatcher_get_target_error`
returns `DIRWATCHER_UNKNOWN_OS_ERROR`; and it returns `DIRWATCHER_SUCCESS` on no target
at all. -/
theorem get_target_error_without_error :
    (dirwatcher_get_target_error (some created_target)).ret
      = .DIRWATCHER_UNKNOWN_OS_ERROR ∧
    (∀ (control : Bool) (exit_flag : Int) (callback : Option Nat),
      (dirwatcher_get_target_error
        (some { magic := DIRWATCHER_TARGET_MAGIC_NUMBER, worker_control_event := control,
                exit_flag := exit_flag, error_code := 0, callback := callback })).ret
        = .DIRWATCHER_UNKNOWN_OS_ERROR) ∧
    (∀ target : Option _dirwatcher_target_impl_t,
      (dirwatcher_get_target_error target).ret ≠ .DIRWATCHER_SUCCESS) := by
  refine ⟨by decide, ?_, ?_⟩
  · intro control exit_flag callback
    have hv := valid_of_magic
      { magic := DIRWATCHER_TARGET_MAGIC_NUMBER, worker_control_event := control,
        exit_flag := exit_flag, error_code := 0, callback := callback } rfl
    simp [dirwatcher_get_target_error, hv, ERROR_ACCESS_DENIED, ERROR_NOT_ENOUGH_MEMORY,
      ERROR_OUTOFMEMORY, ERROR_TOO_MANY_OPEN_FILES, ERROR_INVALID_FUNCTION,
      ERROR_INVALID_PARAMETER, ERROR_NOACCESS, ERROR_NOTIFY_ENUM_DIR]
  · intro target
    cases target with
    | none => simp [dirwatcher_get_target_error]
    | some t =>
      unfold dirwatcher_get_target_error
      simp only []
      split_ifs <;> simp

theorem watch_calls_valid (ops : List Bool) (t : _dirwatcher_target_impl_t)
    (hm : t.magic = DIRWATCHER_TARGET_MAGIC_NUMBER) :
    (watch_calls ops (some t)).1 = List.replicate ops.length true ∧
    (watch_calls ops (some t)).2
      = some { t with worker_control_event := (ops.getLast?).getD t.worker_control_event } := by
  induction ops generalizing t with
  | nil => simp [watch_calls]
  | cons b ops ih =>
    have hv := valid_of_magic t hm
    cases b
    · have ih1 := ih { t with worker_control_event := false } hm
      simp only [watch_calls, dirwatcher_stop_watch_target, hv, _pause_target, if_true]
      refine ⟨?_, ?_⟩
      · rw [ih1.1]; simp [List.replicate_succ]
      · rw [ih1.2]
        cases ops with
        | nil => simp
        | cons c cs =>
          cases hl : (c :: cs).getLast? with
          | none => simp at hl
          | some x => simp [hl]
    · have ih1 := ih { t with worker_control_event := true } hm
      simp only [watch_calls, dirwatcher_start_watch_target, hv, _resume_target, if_true]
      refine ⟨?_, ?_⟩
      · rw [ih1.1]; simp [List.replicate_succ]
      · rw [ih1.2]
        cases ops with
        | nil => simp
        | cons c cs =>
          cases hl : (c :: cs).getLast? with
          | none => simp at hl
          | some x => simp [hl]

/-- C9: on a valid target, `dirwatcher_start_watch_target` and
`dirwatcher_stop_watch_target` return `true`; start leaves the control event set and stop
leaves it reset, with every other field as it was; a second start (stop) changes nothing;
and after any sequence of start/stop calls every call has returned `true` and the target
is the original one with the control event as the last call set it. -/
theorem start_stop_idempotent (t : _dirwatcher_target_impl_t)
    (hm : t.magic = DIRWATCHER_TARGET_MAGIC_NUMBER) :
    (dirwatcher_start_watch_target (some t)).ret = true ∧
    (dirwatcher_stop_watch_target (some t)).ret = true ∧
    (dirwatcher_start_watch_target (some t)).target
      = some { t with worker_control_event := true } ∧
    (dirwatcher_stop_watch_target (some t)).target
      = some { t with worker_control_event := false } ∧
    (dirwatcher_start_watch_target (dirwatcher_start_watch_target (some t)).target).ret = true ∧
    (dirwatcher_start_watch_target (dirwatcher_start_watch_target (some t)).target).target
      = (dirwatcher_start_watch_target (some t)).target ∧
    (dirwatcher_stop_watch_target (dirwatcher_stop_watch_target (some t)).target).ret = true ∧
    (dirwatcher_stop_watch_target (dirwatcher_stop_watch_target (some t)).target).target
      = (dirwatcher_stop_watch_target (some t)).target ∧
    (∀ (ops : List Bool) (b : Bool),
      (watch_calls (ops ++ [b]) (some t)).1 = List.replicate (ops.length + 1) true ∧
      (watch_calls (ops ++ [b]) (some t)).2 = some { t with worker_control_event := b }) := by
  have hv := valid_of_magic t hm
  have hv1 := valid_of_magic { t with worker_control_event := true } hm
  have hv0 := valid_of_magic { t with worker_control_event := false } hm
  refine ⟨?_, ?_, ?_, ?_, ?_, ?_, ?_, ?_, ?_⟩
  · simp [dirwatcher_start_watch_target, hv]
  · simp [dirwatcher_stop_watch_target, hv]
  · simp [dirwatcher_start_watch_target, hv, _resume_target]
  · simp [dirwatcher_stop_watch_target, hv, _pause_target]
  · simp [dirwatcher_start_watch_target, hv, hv1, _resume_target]
  · simp [dirwatcher_start_watch_target, hv, hv1, _resume_target]
  · simp [dirwatcher_stop_watch_target, hv, hv0, _pause_target]
  · simp [dirwatcher_stop_watch_target, hv, hv0, _pause_target]
  · intro ops b
    have h := watch_calls_valid (ops ++ [b]) t hm
    simpa using h

theorem start_stop_idempotent_witness :
    created_target.magic = DIRWATCHER_TARGET_MAGIC_NUMBER ∧
    (watch_calls ([true, false, false] ++ [true]) (some created_target)).2
      = some { created_target with worker_control_event := true } :=
  ⟨rfl, ((start_stop_idempotent created_target rfl).2.2.2.2.2.2.2.2 [true, false, false] true).2⟩

/-! ## The event translator -/

theorem chain_bound {buf : NotifyBuffer} {p : Nat} {recs : List FILE_NOTIFY_INFORMATION}
    (h : Chain buf p recs) : p + recs.length + 11 ≤ buf.size := by
  induction h with
  | last hd _ =>
    unfold deref at hd
    split at hd
    · simp; omega
    · cases hd
  | next hd hne _ ih =>
    simp only [List.length_cons]
    omega

theorem chain_length_pos {buf : NotifyBuffer} {p : Nat} {recs : List FILE_NOTIFY_INFORMATION}
    (h : Chain buf p recs) : 0 < recs.length := by
  cases h <;> simp

theorem count_loop_of_chain {buf : NotifyBuffer} {p : Nat}
    {recs : List FILE_NOTIFY_INFORMATION} (h : Chain buf p recs) :
    ∀ fuel count, recs.length ≤ fuel →
      get_notifies_count_loop buf fuel p count = some (count + recs.length - 1) := by
  induction h with
  | last hd hz =>
    intro fuel count hf
    cases fuel with
    | zero => simp at hf
    | succ fuel => simp [get_notifies_count_loop, _go_next_notify, hd, hz]
  | next hd hne hc ih =>
    intro fuel count hf
    cases fuel with
    | zero => simp at hf
    | succ fuel =>
      have hl := chain_length_pos hc
      simp only [List.length_cons] at hf
      simp only [get_notifies_count_loop, _go_next_notify, hd, hne, if_false]
      rw [ih fuel (count + 1) (by omega)]
      simp only [List.length_cons]
      congr 1
      omega

theorem get_notifies_count_of_chain {buf : NotifyBuffer} {p : Nat}
    {recs : List FILE_NOTIFY_INFORMATION} (h : Chain buf p recs) :
    _get_notifies_count buf p = some recs.length := by
  unfold _get_notifies_count
  rw [count_loop_of_chain h buf.size 1 (by have := chain_bound h; omega)]
  have := chain_length_pos h
  congr 1
  omega

theorem wstrn_to_cstr_name (utf8 : List Nat → List Nat) (hutf8 : utf8 [] = [])
    (r : FILE_NOTIFY_INFORMATION) :
    (_wstrn_to_cstr utf8 r.FileName (r.FileNameLength / 2)
      (_get_cstr_count_from_wstrn utf8 r.FileName (r.FileNameLength / 2))).2
      = utf8 (record_name r) := by
  unfold _wstrn_to_cstr _get_cstr_count_from_wstrn WideCharToMultiByte record_name
  by_cases hw : r.FileNameLength / 2 = 0
  · simp [hw, hutf8]
  · by_cases hl : (utf8 (List.take (r.FileNameLength / 2) r.FileName)).length = 0
    · have he : utf8 (List.take (r.FileNameLength / 2) r.FileName) = [] :=
        List.eq_nil_of_length_eq_zero hl
      simp [hw, he]
    · simp [hw, hl]

theorem loop_of_chain (utf8 : List Nat → List Nat) (hutf8 : utf8 [] = [])
    (malloc_ok : Nat → Bool) {buf : NotifyBuffer} {p : Nat}
    {recs : List FILE_NOTIFY_INFORMATION} (h : Chain buf p recs) :
    ∀ todo i arr heap, (∀ j, j < recs.length → j < todo → malloc_ok (i + j) = true) →
      notifies_to_events_loop utf8 malloc_ok buf todo i p arr heap
        = some (true, fill utf8 (recs.take todo) i heap.next arr,
                heap_after (min todo recs.length) heap) := by
  induction h with
  | last hd hz =>
    intro todo i arr heap hok
    cases todo with
    | zero => simp [notifies_to_events_loop, fill, heap_after]
    | succ todo =>
      have h0 : malloc_ok i = true := by simpa using hok 0 (by simp) (by omega)
      simp [notifies_to_events_loop, hd, malloc, h0, _go_next_notify, hz,
        wstrn_to_cstr_name utf8 hutf8, fill, mk_entry, heap_after]
  | @next q r rs hd hne hc ih =>
    intro todo i arr heap hok
    cases todo with
    | zero => simp [notifies_to_events_loop, fill, heap_after]
    | succ todo =>
      have h0 : malloc_ok i = true := by simpa using hok 0 (by simp) (by omega)
      have hrest : ∀ j, j < rs.length → j < todo → malloc_ok (i + 1 + j) = true := by
        intro j hj1 hj2
        have := hok (j + 1) (by simpa using hj1) (by omega)
        rwa [show i + 1 + j = i + (j + 1) by omega]
      simp only [notifies_to_events_loop, hd, malloc, h0, if_true, _go_next_notify, hne,
        if_false, wstrn_to_cstr_name utf8 hutf8]
      rw [ih todo (i + 1) _ _ hrest]
      simp only [List.take_succ_cons, fill, mk_entry, List.length_cons,
        Nat.succ_min_succ, heap_after]

theorem loop_of_chain_fail (utf8 : List Nat → List Nat) (hutf8 : utf8 [] = [])
    (malloc_ok : Nat → Bool) {buf : NotifyBuffer} {p : Nat}
    {recs : List FILE_NOTIFY_INFORMATION} (h : Chain buf p recs) :
    ∀ k todo i arr heap, k < recs.length → k < todo →
      (∀ j, j < k → malloc_ok (i + j) = true) → malloc_ok (i + k) = false →
      notifies_to_events_loop utf8 malloc_ok buf todo i p arr heap
        = some (false, memset_zero (fill utf8 (recs.take k) i heap.next arr),
                free_names (fill utf8 (recs.take k) i heap.next arr) (i + k)
                  (heap_after k heap)) := by
  induction h with
  | last hd hz =>
    intro k todo i arr heap hk hkt hok hfail
    have hk0 : k = 0 := by simpa using hk
    subst hk0
    cases todo with
    | zero => omega
    | succ todo =>
      have h0 : malloc_ok i = false := by simpa using hfail
      simp [notifies_to_events_loop, hd, malloc, h0, fill, heap_after]
  | next hd hne hc ih =>
    intro k todo i arr heap hk hkt hok hfail
    cases todo with
    | zero => omega
    | succ todo =>
      cases k with
      | zero =>
        have h0 : malloc_ok i = false := by simpa using hfail
        simp [notifies_to_events_loop, hd, malloc, h0, fill, heap_after]
      | succ k =>
        have h0 : malloc_ok i = true := by simpa using hok 0 (by omega)
        have hrest : ∀ j, j < k → malloc_ok (i + 1 + j) = true := by
          intro j hj
          have := hok (j + 1) (by omega)
          rwa [show i + 1 + j = i + (j + 1) by omega]
        have hfail1 : malloc_ok (i + 1 + k) = false := by
          rwa [show i + 1 + k = i + (k + 1) by omega]
        simp only [notifies_to_events_loop, hd, malloc, h0, if_true, _go_next_notify, hne,
          if_false, wstrn_to_cstr_name utf8 hutf8]
        rw [ih k todo (i + 1) _ _ (by simpa using hk) (by omega) hrest hfail1]
        simp only [List.take_succ_cons, fill, mk_entry, heap_after]
        rw [show i + 1 + k = i + (k + 1) by omega]

theorem fill_length (utf8 : List Nat → List Nat) (rs : List FILE_NOTIFY_INFORMATION) :
    ∀ i b arr, (fill utf8 rs i b arr).length = arr.length := by
  induction rs with
  | nil => intro i b arr; rfl
  | cons r rs ih => intro i b arr; simp [fill, ih]

theorem fill_getElem? (utf8 : List Nat → List Nat) (rs : List FILE_NOTIFY_INFORMATION) :
    ∀ i b arr k, i + rs.length ≤ arr.length →
      (fill utf8 rs i b arr)[k]?
        = if i ≤ k ∧ k < i + rs.length then rs[k - i]?.map (mk_entry utf8 (b + (k - i)))
          else arr[k]? := by
  induction rs with
  | nil =>
    intro i b arr k _
    have h0 : ¬ (i ≤ k ∧ k < i + ([] : List FILE_NOTIFY_INFORMATION).length) := by
      simp only [List.length_nil]; omega
    rw [if_neg h0]
    rfl
  | cons r rs ih =>
    intro i b arr k hlen
    simp only [List.length_cons] at hlen
    simp only [fill]
    rw [ih (i + 1) (b + 1) _ k (by simp; omega)]
    rcases Nat.lt_trichotomy k i with hk | hk | hk
    · have h1 : ¬ (i + 1 ≤ k ∧ k < i + 1 + rs.length) := by omega
      have h2 : ¬ (i ≤ k ∧ k < i + (r :: rs).length) := by omega
      rw [if_neg h1, if_neg h2, List.getElem?_set_ne (by omega)]
    · subst hk
      have h1 : ¬ (k + 1 ≤ k ∧ k < k + 1 + rs.length) := by omega
      have h2 : k ≤ k ∧ k < k + (r :: rs).length := by simp
      rw [if_neg h1, if_pos h2, List.getElem?_set]
      simp
      omega
    · obtain ⟨d, rfl⟩ : ∃ d, k = i + 1 + d := ⟨k - (i + 1), by omega⟩
      by_cases hd : d < rs.length
      · have h1 : i + 1 ≤ i + 1 + d ∧ i + 1 + d < i + 1 + rs.length := by omega
        have h2 : i ≤ i + 1 + d ∧ i + 1 + d < i + (r :: rs).length := by
          simp only [List.length_cons]; omega
        rw [if_pos h1, if_pos h2]
        rw [show i + 1 + d - (i + 1) = d by omega, show i + 1 + d - i = d + 1 by omega]
        rw [List.getElem?_cons_succ, show b + 1 + d = b + (d + 1) by omega]
      · have h1 : ¬ (i + 1 ≤ i + 1 + d ∧ i + 1 + d < i + 1 + rs.length) := by omega
        have h2 : ¬ (i ≤ i + 1 + d ∧ i + 1 + d < i + (r :: rs).length) := by
          simp only [List.length_cons]; omega
        rw [if_neg h1, if_neg h2, List.getElem?_set_ne (by omega)]

theorem heap_after_eq : ∀ (m : Nat) (h : Heap),
    heap_after m h = { next := h.next + m, live := revblocks h.next m ++ h.live } := by
  intro m
  induction m with
  | zero => intro h; simp [heap_after, revblocks]
  | succ m ih =>
    intro h
    simp only [heap_after]
    rw [ih]
    simp only [revblocks, List.append_assoc, List.singleton_append]
    congr 1
    omega

theorem le_of_mem_revblocks : ∀ (m b x : Nat), x ∈ revblocks b m → b ≤ x := by
  intro m
  induction m with
  | zero => intro b x hx; simp [revblocks] at hx
  | succ m ih =>
    intro b x hx
    simp only [revblocks, List.mem_append, List.mem_singleton] at hx
    rcases hx with hx | hx
    · have := ih (b + 1) x hx; omega
    · omega

theorem free_all_revblocks : ∀ (ps : List (Option CStr)) (b n : Nat) (live0 : List Nat),
    ps.map (Option.map CStr.block) = (List.range' b ps.length).map some →
    free_all ps { next := n, live := revblocks b ps.length ++ live0 }
      = { next := n, live := live0 } := by
  intro ps
  induction ps with
  | nil => intro b n live0 _; simp [free_all, revblocks]
  | cons p ps ih =>
    intro b n live0 hps
    simp only [List.length_cons, List.range'_succ, List.map_cons, List.cons.injEq] at hps
    obtain ⟨hp, hrest⟩ := hps
    cases p with
    | none => simp at hp
    | some c =>
      have hb : c.block = b := by simpa using hp
      have hnot : b ∉ revblocks (b + 1) ps.length := by
        intro hmem
        have := le_of_mem_revblocks _ _ _ hmem
        omega
      have hih := ih (b + 1) n live0 hrest
      unfold free_all at hih ⊢
      simp only [List.foldl_cons, free, List.length_cons, revblocks, hb, List.append_assoc,
        List.singleton_append]
      rw [List.erase_append_right _ hnot, List.erase_cons_head]
      exact hih

theorem free_names_eq_free_all (arr : List dirwatcher_event_info_t) (i : Nat) (heap : Heap) :
    free_names arr i heap
      = free_all ((List.range i).map (fun j => (arr.get? j).bind (fun e => e.name))) heap := by
  unfold free_names free_all
  rw [List.foldl_map]

theorem free_names_fill (utf8 : List Nat → List Nat) (rs : List FILE_NOTIFY_INFORMATION)
    (arr : List dirwatcher_event_info_t) (heap : Heap) (hlen : rs.length ≤ arr.length) :
    free_names (fill utf8 rs 0 heap.next arr) rs.length (heap_after rs.length heap)
      = { next := heap.next + rs.length, live := heap.live } := by
  rw [free_names_eq_free_all, heap_after_eq]
  have hmap : ((List.range rs.length).map
      (fun j => ((fill utf8 rs 0 heap.next arr).get? j).bind (fun e => e.name))).map
        (Option.map CStr.block)
      = (List.range' heap.next rs.length).map some := by
    rw [List.range'_eq_map_range, List.map_map, List.map_map]
    apply List.map_congr_left
    intro j hj
    have hj1 : j < rs.length := List.mem_range.mp hj
    have hc : 0 ≤ j ∧ j < 0 + rs.length := by omega
    simp only [Function.comp, List.get?_eq_getElem?]
    rw [fill_getElem? utf8 rs 0 heap.next arr j (by omega), if_pos hc]
    simp [List.getElem?_eq_getElem hj1, mk_entry]
  have hl : ((List.range rs.length).map
      (fun j => ((fill utf8 rs 0 heap.next arr).get? j).bind (fun e => e.name))).length
      = rs.length := by simp
  have := free_all_revblocks _ heap.next (heap.next + rs.length) heap.live
    (by rw [hl]; exact hmap)
  rw [hl] at this
  exact this

theorem event_view_mk_entry (utf8 : List Nat → List Nat) (b : Nat)
    (r : FILE_NOTIFY_INFORMATION) : event_view (mk_entry utf8 b r) = record_view utf8 r := rfl

theorem fill_view (utf8 : List Nat → List Nat) (rs : List FILE_NOTIFY_INFORMATION)
    (b c : Nat) (hlen : rs.length ≤ c) :
    (fill utf8 rs 0 b (List.replicate c zero_event)).map event_view
      = rs.map (record_view utf8)
        ++ List.replicate (c - rs.length) (none, dirwatcher_event_t.DIRWATCHER_EVENT_NULL) := by
  apply List.ext_getElem?
  intro k
  rw [List.getElem?_map, fill_getElem? utf8 rs 0 b _ k (by simpa using hlen),
    List.getElem?_append, List.length_map, List.getElem?_map]
  by_cases hk : k < rs.length
  · have hc : 0 ≤ k ∧ k < 0 + rs.length := by omega
    rw [if_pos hc, if_pos hk, Option.map_map]
    simp only [Nat.sub_zero]
    rfl
  · have hc : ¬ (0 ≤ k ∧ k < 0 + rs.length) := by omega
    rw [if_neg hc, if_neg hk, List.getElem?_replicate, List.getElem?_replicate]
    by_cases hkc : k < c
    · have h2 : k - rs.length < c - rs.length := by omega
      rw [if_pos hkc, if_pos h2]
      rfl
    · have h2 : ¬ (k - rs.length < c - rs.length) := by omega
      rw [if_neg hkc, if_neg h2]
      rfl

theorem notifies_to_events_eq (utf8 : List Nat → List Nat) (hutf8 : utf8 [] = [])
    (malloc_ok : Nat → Bool) {buf : NotifyBuffer} {p : Nat}
    {recs : List FILE_NOTIFY_INFORMATION} (hchain : Chain buf p recs)
    (arr : List dirwatcher_event_info_t) (count0 : Nat) (heap : Heap)
    (hok : ∀ i, i < recs.length → i < arr.length → malloc_ok i = true) :
    _notifies_to_events utf8 malloc_ok buf p (some arr) (some count0) heap
      = some { ret := true,
               arr := some (fill utf8 (recs.take arr.length) 0 heap.next
                        (List.replicate arr.length zero_event)),
               count := some recs.length,
               heap := heap_after (min arr.length recs.length) heap } := by
  have hloop := loop_of_chain utf8 hutf8 malloc_ok hchain arr.length 0 (memset_zero arr) heap
    (by intro j h1 h2; simpa using hok j h1 h2)
  simp only [_notifies_to_events, get_notifies_count_of_chain hchain]
  have hm : (memset_zero arr).length = arr.length := by simp [memset_zero]
  rw [← hm] at hloop
  simp only [memset_zero, List.length_replicate] at hloop ⊢
  rw [hloop]

theorem notifies_to_events_fail_eq (utf8 : List Nat → List Nat) (hutf8 : utf8 [] = [])
    (malloc_ok : Nat → Bool) {buf : NotifyBuffer} {p : Nat}
    {recs : List FILE_NOTIFY_INFORMATION} (hchain : Chain buf p recs)
    (arr : List dirwatcher_event_info_t) (count0 : Nat) (heap : Heap) (i : Nat)
    (hi : i < recs.length) (hic : i < arr.length)
    (hok : ∀ j, j < i → malloc_ok j = true) (hfail : malloc_ok i = false) :
    _notifies_to_events utf8 malloc_ok buf p (some arr) (some count0) heap
      = some { ret := false, arr := some (List.replicate arr.length zero_event),
               count := some 0, heap := { next := heap.next + i, live := heap.live } } := by
  have hloop := loop_of_chain_fail utf8 hutf8 malloc_ok hchain i arr.length 0
    (memset_zero arr) heap hi hic (by intro j hj; simpa using hok j hj) (by simpa using hfail)
  have hlen : (recs.take i).length = i := by simp; omega
  have hfree := free_names_fill utf8 (recs.take i) (memset_zero arr) heap
    (by simp [memset_zero]; omega)
  rw [hlen] at hfree
  simp only [_notifies_to_events, get_notifies_count_of_chain hchain]
  simp only [memset_zero, List.length_replicate, Nat.zero_add, fill_length] at hloop hfree ⊢
  rw [hloop, hfree]

/-- C3: for a record chain of `n` records and an output array of `c` entries, when no
allocation fails, `_notifies_to_events` returns `true`, reports the count `n`, and leaves
in the array the first `min n c` records in record order, each with the kind
`_action_to_event` gives its action and with the UTF-8 encoding of its name, followed by
zeroed entries up to `c`. -/
theorem notifies_to_events_translates (utf8 : List Nat → List Nat) (hutf8 : utf8 [] = [])
    (malloc_ok : Nat → Bool) (buf : NotifyBuffer) (p : Nat)
    (recs : List FILE_NOTIFY_INFORMATION) (hchain : Chain buf p recs)
    (arr : List dirwatcher_event_info_t) (count0 : Nat) (heap : Heap)
    (hok : ∀ i, malloc_ok i = true) :
    ∃ res out, _notifies_to_events utf8 malloc_ok buf p (some arr) (some count0) heap = some res ∧
      res.ret = true ∧ res.count = some recs.length ∧ res.arr = some out ∧
      out.length = arr.length ∧
      out.map event_view
        = (recs.take (min recs.length arr.length)).map (record_view utf8)
          ++ List.replicate (arr.length - min recs.length arr.length)
              (none, dirwatcher_event_t.DIRWATCHER_EVENT_NULL) ∧
      (∀ a : Nat, _action_to_event a =
        if a = 1 then .DIRWATCHER_EVENT_ADDED else if a = 2 then .DIRWATCHER_EVENT_REMOVED
        else if a = 3 then .DIRWATCHER_EVENT_MODIFIED
        else if a = 4 then .DIRWATCHER_EVENT_RENAMED_FROM
        else if a = 5 then .DIRWATCHER_EVENT_RENAMED_TO else .DIRWATCHER_EVENT_NULL) := by
  refine ⟨_, _, notifies_to_events_eq utf8 hutf8 malloc_ok hchain arr count0 heap
    (fun i _ _ => hok i), rfl, rfl, rfl, ?_, ?_, ?_⟩
  · simp [fill_length]
  · have hl : (recs.take arr.length).length ≤ arr.length := by simp
    rw [fill_view utf8 _ heap.next arr.length hl]
    have h1 : recs.take (min recs.length arr.length) = recs.take arr.length := by
      rcases Nat.le_total recs.length arr.length with h | h
      · rw [Nat.min_eq_left h, List.take_of_length_le (le_refl _), List.take_of_length_le h]
      · rw [Nat.min_eq_right h]
    have h2 : arr.length - (recs.take arr.length).length
        = arr.length - min recs.length arr.length := by
      simp [Nat.min_comm]
    rw [h1, h2]
  · intro a
    rfl

theorem sample_chain :
    Chain { size := NOTIFY_BUFFER_SIZE, view := sample_buffer } 0 sample_records :=
  Chain.next (r := { NextEntryOffset := 16, Action := 1, FileNameLength := 2, FileName := [97] })
    (by decide) (by decide)
    (Chain.last (by decide) (by decide))

theorem notifies_to_events_translates_witness :
    ascii [] = [] ∧ (∀ i : Nat, (fun _ => true) i = true) ∧
    ∃ res out, _notifies_to_events ascii (fun _ => true)
        { size := NOTIFY_BUFFER_SIZE, view := sample_buffer } 0
        (some (List.replicate 3 zero_event)) (some 0) { next := 0, live := [] } = some res ∧
      res.ret = true ∧ res.count = some 2 ∧ res.arr = some out ∧
      out.map event_view
        = [(some [97], .DIRWATCHER_EVENT_ADDED), (some [98, 99], .DIRWATCHER_EVENT_REMOVED),
           (none, .DIRWATCHER_EVENT_NULL)] := by
  obtain ⟨res, out, h1, h2, h3, h4, _, h6, _⟩ :=
    notifies_to_events_translates ascii rfl (fun _ => true)
      { size := NOTIFY_BUFFER_SIZE, view := sample_buffer } 0 sample_records sample_chain
      (List.replicate 3 zero_event) 0 { next := 0, live := [] } (fun _ => rfl)
  exact ⟨rfl, fun _ => rfl, res, out, h1, h2, h3, h4, h6⟩

/-! ## The worker: one batch -/

theorem dispatch_loop_eq (f : Nat) (events : List dirwatcher_event_info_t) :
    ∀ todo i, i + todo ≤ events.length →
      dispatch_loop (some f) events todo i
        = some (((events.drop i).take todo).map
            (fun e => ({ fn := f, event_info := some e } : CallbackCall))) := by
  intro todo
  induction todo with
  | zero => intro i _; simp [dispatch_loop]
  | succ todo ih =>
    intro i hi
    have hlt : i < events.length := by omega
    simp only [dispatch_loop, List.get?_eq_getElem?, List.getElem?_eq_getElem hlt]
    rw [ih (i + 1) (by omega), List.drop_eq_getElem_cons hlt]
    rfl

theorem cleanup_loop_some :
    ∀ todo i (arr : List dirwatcher_event_info_t) (heap : Heap), i + todo ≤ arr.length →
      ∃ r, cleanup_events_loop todo i arr heap = some r ∧ r.1.length = arr.length := by
  intro todo
  induction todo with
  | zero => intro i arr heap _; exact ⟨(arr, heap), rfl, rfl⟩
  | succ todo ih =>
    intro i arr heap hi
    have hlt : i < arr.length := by omega
    simp only [cleanup_events_loop, List.get?_eq_getElem?, List.getElem?_eq_getElem hlt]
    obtain ⟨r, hr, hl⟩ := ih (i + 1) (arr.set i { arr[i] with name := none })
      (free arr[i].name heap) (by simp; omega)
    exact ⟨r, hr, by simpa using hl⟩

theorem exists_first_failure (m : Nat → Bool) :
    ∀ n, ¬ (∀ i, i < n → m i = true) →
      ∃ i, i < n ∧ m i = false ∧ ∀ j, j < i → m j = true := by
  intro n
  induction n with
  | zero => intro h; exact absurd (fun i hi => absurd hi (Nat.not_lt_zero i)) h
  | succ n ih =>
    intro h
    by_cases hall : ∀ i, i < n → m i = true
    · have hn : m n = false := by
        cases hmn : m n with
        | false => rfl
        | true =>
          exfalso
          apply h
          intro i hi
          rcases Nat.lt_succ_iff_lt_or_eq.mp hi with h1 | h1
          · exact hall i h1
          · rw [h1]; exact hmn
      exact ⟨n, Nat.lt_succ_self n, hn, hall⟩
    · obtain ⟨i, hi, hf, hb⟩ := ih hall
      exact ⟨i, Nat.lt_succ_of_lt hi, hf, hb⟩

theorem worker_handle_success_fail (utf8 : List Nat → List Nat) (hutf8 : utf8 [] = [])
    (malloc_ok : Nat → Bool) (l : WorkerLocals) (heap : Heap)
    {recs : List FILE_NOTIFY_INFORMATION}
    (hchain : Chain { size := NOTIFY_BUFFER_SIZE, view := l.notify_buffer } 0 recs)
    (i : Nat) (hi : i < recs.length) (hic : i < l.events.length)
    (hok : ∀ j, j < i → malloc_ok j = true) (hfail : malloc_ok i = false) :
    worker_handle_success utf8 malloc_ok l heap
      = some ({ l with events := List.replicate l.events.length zero_event, events_count := 0 },
              { next := heap.next + i, live := heap.live }, []) := by
  unfold worker_handle_success
  rw [notifies_to_events_fail_eq utf8 hutf8 malloc_ok hchain l.events l.events_count heap i
    hi hic hok hfail]
  simp [dispatch_loop, _cleanup_events, cleanup_events_loop]

theorem worker_handle_success_ok (utf8 : List Nat → List Nat) (hutf8 : utf8 [] = [])
    (malloc_ok : Nat → Bool) (l : WorkerLocals) (heap : Heap) (f : Nat)
    {recs : List FILE_NOTIFY_INFORMATION}
    (hchain : Chain { size := NOTIFY_BUFFER_SIZE, view := l.notify_buffer } 0 recs)
    (hn : recs.length ≤ l.events.length) (hcb : l.cb = some f)
    (hok : ∀ i, i < recs.length → malloc_ok i = true) :
    ∃ l1 heap1 calls, worker_handle_success utf8 malloc_ok l heap = some (l1, heap1, calls) ∧
      calls.map call_view = recs.map (fun r => (f, some (record_view utf8 r))) ∧
      l1.events.length = l.events.length := by
  unfold worker_handle_success
  rw [notifies_to_events_eq utf8 hutf8 malloc_ok hchain l.events l.events_count heap
    (fun i h1 _ => hok i h1)]
  simp only [Option.getD_some, hcb]
  have hlen : (fill utf8 (recs.take l.events.length) 0 heap.next
      (List.replicate l.events.length zero_event)).length = l.events.length := by
    simp [fill_length]
  rw [dispatch_loop_eq f _ recs.length 0 (by rw [hlen]; omega)]
  obtain ⟨r, hr, hrl⟩ := cleanup_loop_some recs.length 0
    (fill utf8 (recs.take l.events.length) 0 heap.next
      (List.replicate l.events.length zero_event))
    (heap_after (min l.events.length recs.length) heap) (by rw [hlen]; omega)
  simp only [_cleanup_events, hr]
  refine ⟨_, _, _, rfl, ?_, ?_⟩
  · rw [List.map_map, List.drop_zero]
    have hv := fill_view utf8 (recs.take l.events.length) heap.next l.events.length (by simp)
    rw [List.take_of_length_le hn] at hv ⊢
    have hcomp : (call_view ∘ fun e => ({ fn := f, event_info := some e } : CallbackCall))
        = (fun v => (f, some v)) ∘ event_view := by
      funext e; rfl
    rw [hcomp, ← List.map_map, List.map_take, hv, List.take_left' (by simp), List.map_map]
    rfl
  · simpa [hlen] using hrl

/-- C8: if the allocation of the name of record `i` fails, `_notifies_to_events` returns
`false` with the whole array zeroed and the count 0, after `i` blocks were allocated and
every one of them released (the live blocks are those from before the call); the worker
step that handles the batch then makes no callback invocation and goes back to waiting. -/
theorem alloc_failure_delivers_nothing (utf8 : List Nat → List Nat) (hutf8 : utf8 [] = [])
    (malloc_ok : Nat → Bool) (i : Nat)
    (hok : ∀ j, j < i → malloc_ok j = true) (hfail : malloc_ok i = false) :
    (∀ (buf : NotifyBuffer) (p : Nat) (recs : List FILE_NOTIFY_INFORMATION)
        (arr : List dirwatcher_event_info_t) (count0 : Nat) (heap : Heap),
      Chain buf p recs → i < recs.length → i < arr.length →
      _notifies_to_events utf8 malloc_ok buf p (some arr) (some count0) heap
        = some { ret := false, arr := some (List.replicate arr.length zero_event),
                 count := some 0, heap := { next := heap.next + i, live := heap.live } }) ∧
    (∀ (s : Sys) (recs : List FILE_NOTIFY_INFORMATION),
      s.pc = .handle_result → s.locals.success = true →
      Chain { size := NOTIFY_BUFFER_SIZE, view := s.locals.notify_buffer } 0 recs →
      i < recs.length → i < s.locals.events.length →
      ∃ s1, worker_step utf8 malloc_ok s = some (s1, []) ∧ s1.pc = .wait_enable ∧
        s1.target = s.target ∧
        s1.locals.events = List.replicate s.locals.events.length zero_event ∧
        s1.locals.events_count = 0 ∧ s1.heap.live = s.heap.live) := by
  constructor
  · intro buf p recs arr count0 heap hchain hi hic
    exact notifies_to_events_fail_eq utf8 hutf8 malloc_ok hchain arr count0 heap i hi hic
      hok hfail
  · intro s recs hpc hsucc hchain hi hic
    have h := worker_handle_success_fail utf8 hutf8 malloc_ok s.locals s.heap hchain i hi hic
      hok hfail
    simp only [worker_step, hpc, hsucc, if_true, h]
    exact ⟨_, rfl, rfl, rfl, rfl, rfl, rfl⟩

theorem alloc_failure_delivers_nothing_witness :
    ascii [] = [] ∧ (∀ j, j < 1 → (fun k => decide (k < 1)) j = true) ∧
    (fun k => decide (k < 1)) 1 = false ∧
    _notifies_to_events ascii (fun k => decide (k < 1))
        { size := NOTIFY_BUFFER_SIZE, view := sample_buffer } 0
        (some (List.replicate 3 zero_event)) (some 5) { next := 10, live := [4] }
      = some { ret := false, arr := some (List.replicate 3 zero_event), count := some 0,
               heap := { next := 11, live := [4] } } ∧
    ∃ s1, worker_step ascii (fun k => decide (k < 1)) sample_state = some (s1, []) ∧
      s1.pc = .wait_enable :=
  have hok : ∀ j, j < 1 → (fun k => decide (k < 1)) j = true := by
    intro j hj; simpa using hj
  have h := alloc_failure_delivers_nothing ascii rfl (fun k => decide (k < 1)) 1 hok rfl
  ⟨rfl, hok, rfl,
   h.1 { size := NOTIFY_BUFFER_SIZE, view := sample_buffer } 0 sample_records
     (List.replicate 3 zero_event) 5 { next := 10, live := [4] } sample_chain
     (by decide) (by decide),
   (h.2 sample_state sample_records rfl rfl sample_chain (by decide)
     (by
       show 1 < (List.replicate EVENTS_CAPACITY zero_event).length
       rw [List.length_replicate]
       decide)).imp
     (fun _ hs => ⟨hs.1, hs.2.1⟩)⟩

/-! ## Schedules -/

theorem run_append (utf8 : List Nat → List Nat) :
    ∀ (as bs : List Action) (s : Sys),
      run utf8 s (as ++ bs)
        = match run utf8 s as with
          | none => none
          | some (s1, calls1) =>
            match run utf8 s1 bs with
            | none => none
            | some (s2, calls2) => some (s2, calls1 ++ calls2) := by
  intro as
  induction as with
  | nil =>
    intro bs s
    simp only [List.nil_append, run]
    cases run utf8 s bs with
    | none => rfl
    | some r => simp
  | cons a as ih =>
    intro bs s
    simp only [List.cons_append, run]
    cases hstep : step utf8 s a with
    | none => rfl
    | some r =>
      obtain ⟨s1, c1⟩ := r
      simp only []
      rw [show as.append bs = as ++ bs from rfl, ih bs s1]
      cases run utf8 s1 as with
      | none => rfl
      | some r2 =>
        obtain ⟨s2, c2⟩ := r2
        simp only []
        cases run utf8 s2 bs with
        | none => rfl
        | some r3 => simp [List.append_assoc]

theorem api_target_frame (t : _dirwatcher_target_impl_t) (cb : Option Nat) :
    (∃ t1, (dirwatcher_set_target_callback (some t) cb).target = some t1 ∧
      t1.magic = t.magic ∧ t1.exit_flag = t.exit_flag ∧ t1.error_code = t.error_code) ∧
    (∃ t1, (dirwatcher_start_watch_target (some t)).target = some t1 ∧
      t1.magic = t.magic ∧ t1.exit_flag = t.exit_flag ∧ t1.error_code = t.error_code) ∧
    (∃ t1, (dirwatcher_stop_watch_target (some t)).target = some t1 ∧
      t1.magic = t.magic ∧ t1.exit_flag = t.exit_flag ∧ t1.error_code = t.error_code) ∧
    (dirwatcher_get_target_error (some t)).target = some t ∧
    (dirwatcher_get_target_win32_error (some t)).target = some t := by
  refine ⟨?_, ?_, ?_, ?_, ?_⟩
  · unfold dirwatcher_set_target_callback
    split_ifs
    · exact ⟨_, rfl, rfl, rfl, rfl⟩
    · exact ⟨_, rfl, rfl, rfl, rfl⟩
  · unfold dirwatcher_start_watch_target
    split_ifs
    · exact ⟨_, rfl, rfl, rfl, rfl⟩
    · exact ⟨_, rfl, rfl, rfl, rfl⟩
  · unfold dirwatcher_stop_watch_target
    split_ifs
    · exact ⟨_, rfl, rfl, rfl, rfl⟩
    · exact ⟨_, rfl, rfl, rfl, rfl⟩
  · unfold dirwatcher_get_target_error
    simp only []
    split_ifs <;> rfl
  · unfold dirwatcher_get_target_win32_error
    simp only []
    split_ifs <;> rfl

theorem api_step_cases {α : Type} (r : ApiResult α) (s : Sys) :
    (api_step r s).target = r.target.getD s.target ∧ (api_step r s).heap = s.heap ∧
    (((api_step r s).pc = s.pc ∧ (api_step r s).locals = s.locals) ∨
     (s.pc = .read_changes ∧ (api_step r s).pc = .get_callback ∧
      (api_step r s).locals
        = { s.locals with success := false, last_error := ERROR_OPERATION_ABORTED })) := by
  unfold api_step apply_calls
  split_ifs with h
  · exact ⟨rfl, rfl, Or.inr ⟨h.2, rfl, rfl⟩⟩
  · exact ⟨rfl, rfl, Or.inl ⟨rfl, rfl⟩⟩

theorem step_api_cases (utf8 : List Nat → List Nat) (s : Sys) (a : Action)
    (ha : a.is_api_call = true) :
    ∃ s1, step utf8 s a = some (s1, []) ∧
      s1.target.magic = s.target.magic ∧ s1.target.exit_flag = s.target.exit_flag ∧
      s1.target.error_code = s.target.error_code ∧ s1.heap = s.heap ∧
      ((s1.pc = s.pc ∧ s1.locals = s.locals) ∨
       (s.pc = .read_changes ∧ s1.pc = .get_callback ∧
        s1.locals
          = { s.locals with success := false, last_error := ERROR_OPERATION_ABORTED })) := by
  obtain ⟨h1, h2, h3, h4, h5⟩ := api_target_frame s.target
    (match a with | .set_callback cb => cb | _ => none)
  cases a with
  | set_callback cb =>
    obtain ⟨t1, ht, hm, hx, he⟩ := h1
    have hc := api_step_cases (dirwatcher_set_target_callback (some s.target) cb) s
    rw [ht] at hc
    exact ⟨_, rfl, by rw [hc.1]; exact hm, by rw [hc.1]; exact hx, by rw [hc.1]; exact he,
      hc.2.1, hc.2.2⟩
  | start_watch =>
    obtain ⟨t1, ht, hm, hx, he⟩ := h2
    have hc := api_step_cases (dirwatcher_start_watch_target (some s.target)) s
    rw [ht] at hc
    exact ⟨_, rfl, by rw [hc.1]; exact hm, by rw [hc.1]; exact hx, by rw [hc.1]; exact he,
      hc.2.1, hc.2.2⟩
  | stop_watch =>
    obtain ⟨t1, ht, hm, hx, he⟩ := h3
    have hc := api_step_cases (dirwatcher_stop_watch_target (some s.target)) s
    rw [ht] at hc
    exact ⟨_, rfl, by rw [hc.1]; exact hm, by rw [hc.1]; exact hx, by rw [hc.1]; exact he,
      hc.2.1, hc.2.2⟩
  | get_error =>
    have hc := api_step_cases (dirwatcher_get_target_error (some s.target)) s
    rw [h4] at hc
    exact ⟨_, rfl, by rw [hc.1]; rfl, by rw [hc.1]; rfl, by rw [hc.1]; rfl, hc.2.1, hc.2.2⟩
  | get_win32_error =>
    have hc := api_step_cases (dirwatcher_get_target_win32_error (some s.target)) s
    rw [h5] at hc
    exact ⟨_, rfl, by rw [hc.1]; rfl, by rw [hc.1]; rfl, by rw [hc.1]; rfl, hc.2.1, hc.2.2⟩
  | worker m => simp [Action.is_api_call] at ha
  | io r => simp [Action.is_api_call] at ha

theorem run_api_calls_frame (utf8 : List Nat → List Nat) :
    ∀ (apis : List Action) (s : Sys), (∀ a, a ∈ apis → a.is_api_call = true) →
      s.pc ≠ .read_changes →
      ∃ s1, run utf8 s apis = some (s1, []) ∧ s1.pc = s.pc ∧ s1.locals = s.locals ∧
        s1.heap = s.heap ∧ s1.target.error_code = s.target.error_code ∧
        s1.target.exit_flag = s.target.exit_flag := by
  intro apis
  induction apis with
  | nil => intro s _ _; exact ⟨s, rfl, rfl, rfl, rfl, rfl, rfl⟩
  | cons a apis ih =>
    intro s hall hpc
    obtain ⟨s1, h1, _, hx1, he1, hh1, hc1⟩ := step_api_cases utf8 s a (hall a (by simp))
    rcases hc1 with ⟨hp1, hl1⟩ | ⟨hp1, _, _⟩
    · obtain ⟨s2, h2, hp2, hl2, hh2, he2, hx2⟩ := ih s1 (fun b hb => hall b (by simp [hb]))
        (by rw [hp1]; exact hpc)
      refine ⟨s2, ?_, by rw [hp2, hp1], by rw [hl2, hl1], by rw [hh2, hh1],
        by rw [he2, he1], by rw [hx2, hx1]⟩
      simp only [run, h1, h2, List.append_nil]
    · exact absurd hp1 hpc

/-- C4: when a notification call has returned successfully and a callback `f` is
installed, the worker reads the callback once; whatever lifecycle calls other threads make
before the batch is handled (a replacement of the callback included), the worker then
invokes exactly that `f`, once for each record of the batch in record order, with the
translated event, and makes no other invocation: as many invocations as translated events,
at most the 256 entries of the array.  (If an allocation fails while the batch is
translated, no event is materialised and none is delivered.) -/
theorem worker_dispatches_batch (utf8 : List Nat → List Nat) (hutf8 : utf8 [] = [])
    (s : Sys) (f : Nat) (recs : List FILE_NOTIFY_INFORMATION) (m1 m2 : Nat → Bool)
    (apis : List Action)
    (hpc : s.pc = .get_callback) (hsucc : s.locals.success = true)
    (hcb : s.target.callback = some f)
    (hchain : Chain { size := NOTIFY_BUFFER_SIZE, view := s.locals.notify_buffer } 0 recs)
    (hn : recs.length ≤ EVENTS_CAPACITY)
    (hev : s.locals.events.length = EVENTS_CAPACITY)
    (hapis : ∀ a, a ∈ apis → a.is_api_call = true) :
    ∃ s1 calls, run utf8 s (.worker m1 :: (apis ++ [.worker m2])) = some (s1, calls) ∧
      s1.pc = .wait_enable ∧
      calls.map call_view
        = (if ∀ i, i < recs.length → m2 i = true
           then recs.map (fun r => (f, some (record_view utf8 r))) else []) ∧
      calls.length ≤ EVENTS_CAPACITY := by
  have hstep1 : step utf8 s (.worker m1)
      = some ({ s with pc := .handle_result,
                       locals := { s.locals with cb := s.target.callback } }, []) := by
    simp only [step, worker_step, hpc]
  obtain ⟨sb, hrun, hpb, hlb, _, _, _⟩ := run_api_calls_frame utf8 apis
    { s with pc := .handle_result, locals := { s.locals with cb := s.target.callback } }
    hapis (by simp)
  have hsb_succ : sb.locals.success = true := by rw [hlb]; exact hsucc
  have hsb_chain : Chain { size := NOTIFY_BUFFER_SIZE, view := sb.locals.notify_buffer } 0
      recs := by rw [hlb]; exact hchain
  have hsb_len : sb.locals.events.length = EVENTS_CAPACITY := by rw [hlb]; exact hev
  have hsb_cb : sb.locals.cb = some f := by rw [hlb]; exact hcb
  have hsb_pc : sb.pc = .handle_result := hpb
  simp only [run, hstep1, run_append, hrun, List.nil_append]
  by_cases hall : ∀ i, i < recs.length → m2 i = true
  · obtain ⟨l1, heap1, calls, hw, hcalls, _⟩ :=
      worker_handle_success_ok utf8 hutf8 m2 sb.locals sb.heap f hsb_chain
        (by rw [hsb_len]; exact hn) hsb_cb hall
    have hstep2 : step utf8 sb (.worker m2)
        = some ({ sb with pc := .wait_enable, locals := l1, heap := heap1 }, calls) := by
      simp only [step, worker_step, hsb_pc, hsb_succ, if_true, hw]
    rw [hstep2]
    refine ⟨_, _, rfl, rfl, ?_, ?_⟩
    · rw [if_pos hall, List.append_nil]; exact hcalls
    · have hl := congrArg List.length hcalls
      simp only [List.length_map] at hl
      rw [List.append_nil, hl]; exact hn
  · obtain ⟨i, hi, hf, hb⟩ := exists_first_failure m2 recs.length hall
    have hw := worker_handle_success_fail utf8 hutf8 m2 sb.locals sb.heap hsb_chain i hi
      (by rw [hsb_len]; omega) hb hf
    have hstep2 : step utf8 sb (.worker m2)
        = some ({ sb with pc := .wait_enable,
                          locals := { sb.locals with
                            events := List.replicate sb.locals.events.length zero_event,
                            events_count := 0 },
                          heap := { next := sb.heap.next + i, live := sb.heap.live } }, []) := by
      simp only [step, worker_step, hsb_pc, hsb_succ, if_true, hw]
    rw [hstep2]
    refine ⟨_, _, rfl, rfl, ?_, ?_⟩
    · rw [if_neg hall]; rfl
    · simp

theorem worker_dispatches_batch_witness :
    ascii [] = [] ∧ sample_records.length ≤ EVENTS_CAPACITY ∧
    ∃ s1 calls,
      run ascii { sample_state with pc := .get_callback }
        (.worker (fun _ => true) :: ([.set_callback (some 9)] ++ [.worker (fun _ => true)]))
        = some (s1, calls) ∧
      calls.map call_view
        = [(7, some (some [97], .DIRWATCHER_EVENT_ADDED)),
           (7, some (some [98, 99], .DIRWATCHER_EVENT_REMOVED))] := by
  obtain ⟨s1, calls, h1, _, h3, _⟩ :=
    worker_dispatches_batch ascii rfl { sample_state with pc := .get_callback } 7
      sample_records (fun _ => true) (fun _ => true) [.set_callback (some 9)] rfl rfl rfl
      sample_chain (by decide)
      (by
        show (List.replicate EVENTS_CAPACITY zero_event).length = EVENTS_CAPACITY
        rw [List.length_replicate])
      (by intro a ha; simp at ha; rw [ha]; rfl)
  refine ⟨rfl, by decide, s1, calls, h1, ?_⟩
  rw [h3, if_pos (fun _ _ => rfl)]
  rfl

/-- Every chain whose records are at least 16 bytes apart has at most
`(size - p - 12) / 16 + 1` records; in the worker's 4096-byte buffer that is at most 256. -/
theorem chain_spaced_bound {buf : NotifyBuffer} {p : Nat}
    {recs : List FILE_NOTIFY_INFORMATION} (h : Chain buf p recs)
    (hsp : ∀ r, r ∈ recs → r.NextEntryOffset ≠ 0 → 16 ≤ r.NextEntryOffset) :
    p + 16 * (recs.length - 1) + 12 ≤ buf.size := by
  induction h with
  | last hd _ =>
    unfold deref at hd
    split at hd
    · simp; omega
    · cases hd
  | @next q r rs hd hne hc ih =>
    have h16 := hsp r (by simp) hne
    have hl := chain_length_pos hc
    have := ih (fun r1 hr1 => hsp r1 (by simp [hr1]))
    simp only [List.length_cons]
    omega

/-! ## The worker and the lifecycle calls, interleaved -/

theorem worker_handle_success_locals (utf8 : List Nat → List Nat) (m : Nat → Bool)
    (l l1 : WorkerLocals) (heap heap1 : Heap) (calls : List CallbackCall)
    (h : worker_handle_success utf8 m l heap = some (l1, heap1, calls)) :
    l1.last_error = l.last_error ∧ l1.cb = l.cb ∧ l1.success = l.success ∧
    l1.notify_buffer = l.notify_buffer := by
  unfold worker_handle_success at h
  split at h
  · cases h
  · simp only [] at h
    split at h
    · cases h
    · split at h
      · cases h
      · simp only [Option.some.injEq, Prod.mk.injEq] at h
        obtain ⟨hl, _, _⟩ := h
        subst hl
        exact ⟨rfl, rfl, rfl, rfl⟩

theorem toLONG_ne_aborted (x : Nat) (hx : x < 2 ^ 32) (hne : x ≠ ERROR_OPERATION_ABORTED) :
    toLONG x ≠ (ERROR_OPERATION_ABORTED : Int) := by
  unfold toLONG
  unfold ERROR_OPERATION_ABORTED at hne ⊢
  rw [Nat.mod_eq_of_lt hx]
  split_ifs <;> omega

theorem toLONG_of_lt (x : Nat) (hx : x < 2 ^ 31) : toLONG x = (x : Int) := by
  unfold toLONG
  have h32 : x < 2 ^ 32 := by omega
  rw [Nat.mod_eq_of_lt h32, if_pos hx]

theorem worker_inv_init (heap : Heap) : worker_inv (init heap) := by
  refine ⟨rfl, ?_, ?_, ?_, ?_⟩
  · show (0 : Int) ≠ (ERROR_OPERATION_ABORTED : Int)
    decide
  · show (0 : Nat) < 2 ^ 32
    decide
  · intro h; cases h
  · intro h; exact absurd rfl h

theorem worker_inv_step (utf8 : List Nat → List Nat) (s s1 : Sys) (a : Action)
    (calls : List CallbackCall) (hinv : worker_inv s)
    (hstep : step utf8 s a = some (s1, calls)) : worker_inv s1 := by
  obtain ⟨hm, he, hl, hse, hz⟩ := hinv
  by_cases ha : a.is_api_call = true
  · obtain ⟨s2, h2, hm2, _, he2, _, hc⟩ := step_api_cases utf8 s a ha
    rw [h2] at hstep
    simp only [Option.some.injEq, Prod.mk.injEq] at hstep
    obtain ⟨rfl, _⟩ := hstep
    rcases hc with ⟨hpc, hloc⟩ | ⟨hpc, hpc2, hloc⟩
    · refine ⟨by rw [hm2]; exact hm, by rw [he2]; exact he, by rw [hloc]; exact hl, ?_, ?_⟩
      · rw [hpc, hloc]; exact hse
      · rw [he2, hpc]; exact hz
    · refine ⟨by rw [hm2]; exact hm, by rw [he2]; exact he, ?_, ?_, ?_⟩
      · rw [hloc]
        show ERROR_OPERATION_ABORTED < 2 ^ 32
        decide
      · rw [hpc2]; intro h; cases h
      · rw [he2]
        intro hne
        have := hz hne
        rw [hpc] at this
        cases this
  · cases a with
    | set_callback cb => exact absurd rfl ha
    | start_watch => exact absurd rfl ha
    | stop_watch => exact absurd rfl ha
    | get_error => exact absurd rfl ha
    | get_win32_error => exact absurd rfl ha
    | worker m =>
      have hzero : ¬ s.pc.after_store_error = true → s.target.error_code = 0 := by
        intro h; by_contra hne; exact h (hz hne)
      cases hpc : s.pc with
      | wait_enable =>
        simp only [step, worker_step, hpc] at hstep
        split_ifs at hstep
        simp only [Option.some.injEq, Prod.mk.injEq] at hstep
        obtain ⟨rfl, _⟩ := hstep
        have h0 := hzero (by rw [hpc]; simp [WorkerPc.after_store_error])
        exact ⟨hm, he, hl, (fun h => by cases h), fun h => absurd h0 h⟩
      | check_exit =>
        simp only [step, worker_step, hpc] at hstep
        have h0 := hzero (by rw [hpc]; simp [WorkerPc.after_store_error])
        split_ifs at hstep <;>
          (simp only [Option.some.injEq, Prod.mk.injEq] at hstep
           obtain ⟨rfl, _⟩ := hstep
           exact ⟨hm, he, hl, (fun h => by cases h), fun h => absurd h0 h⟩)
      | read_changes =>
        simp only [step, worker_step, hpc] at hstep
        cases hstep
      | get_callback =>
        simp only [step, worker_step, hpc] at hstep
        simp only [Option.some.injEq, Prod.mk.injEq] at hstep
        obtain ⟨rfl, _⟩ := hstep
        have h0 := hzero (by rw [hpc]; simp [WorkerPc.after_store_error])
        exact ⟨hm, he, hl, (fun h => by cases h), fun h => absurd h0 h⟩
      | handle_result =>
        simp only [step, worker_step, hpc] at hstep
        have h0 := hzero (by rw [hpc]; simp [WorkerPc.after_store_error])
        split_ifs at hstep with hs hab
        · cases hw : worker_handle_success utf8 m s.locals s.heap with
          | none => rw [hw] at hstep; cases hstep
          | some r =>
            obtain ⟨l1, heap1, c1⟩ := r
            rw [hw] at hstep
            simp only [Option.some.injEq, Prod.mk.injEq] at hstep
            obtain ⟨rfl, _⟩ := hstep
            have hloc := worker_handle_success_locals utf8 m _ _ _ _ _ hw
            exact ⟨hm, he, by show l1.last_error < 2 ^ 32; rw [hloc.1]; exact hl,
              (fun h => by cases h), fun h => absurd h0 h⟩
        · simp only [Option.some.injEq, Prod.mk.injEq] at hstep
          obtain ⟨rfl, _⟩ := hstep
          exact ⟨hm, he, hl, (fun h => by cases h), fun h => absurd h0 h⟩
        · simp only [Option.some.injEq, Prod.mk.injEq] at hstep
          obtain ⟨rfl, _⟩ := hstep
          exact ⟨hm, he, hl, fun _ => hab, fun h => absurd h0 h⟩
      | store_error =>
        simp only [step, worker_step, hpc] at hstep
        simp only [Option.some.injEq, Prod.mk.injEq] at hstep
        obtain ⟨rfl, _⟩ := hstep
        exact ⟨hm, toLONG_ne_aborted _ hl (hse hpc), hl, (fun h => by cases h), fun _ => rfl⟩
      | store_exit =>
        simp only [step, worker_step, hpc] at hstep
        simp only [Option.some.injEq, Prod.mk.injEq] at hstep
        obtain ⟨rfl, _⟩ := hstep
        exact ⟨hm, he, hl, (fun h => by cases h), fun _ => rfl⟩
      | call_null =>
        simp only [step, worker_step, hpc] at hstep
        split at hstep <;>
          (simp only [Option.some.injEq, Prod.mk.injEq] at hstep
           obtain ⟨rfl, _⟩ := hstep
           exact ⟨hm, he, hl, (fun h => by cases h), fun _ => rfl⟩)
      | returned c =>
        simp only [step, worker_step, hpc] at hstep
        cases hstep
    | io r =>
      simp only [step, io_complete] at hstep
      cases hpc : s.pc with
      | read_changes =>
        rw [hpc] at hstep
        have h0 : s.target.error_code = 0 := by
          by_contra hne
          have := hz hne
          rw [hpc] at this
          cases this
        cases r with
        | success b =>
          simp only [Option.map_some', Option.some.injEq, Prod.mk.injEq] at hstep
          obtain ⟨rfl, _⟩ := hstep
          exact ⟨hm, he, hl, (fun h => by cases h), fun h => absurd h0 h⟩
        | failure e =>
          simp only [Option.map_some', Option.some.injEq, Prod.mk.injEq] at hstep
          obtain ⟨rfl, _⟩ := hstep
          exact ⟨hm, he, Nat.mod_lt _ (by decide), (fun h => by cases h), fun h => absurd h0 h⟩
      | _ =>
        rw [hpc] at hstep
        simp at hstep

theorem worker_inv_reachable (utf8 : List Nat → List Nat) (s : Sys)
    (h : Reachable utf8 s) : worker_inv s := by
  induction h with
  | init heap => exact worker_inv_init heap
  | step a _ hstep ih => exact worker_inv_step utf8 _ _ a _ ih hstep

theorem reachable_run (utf8 : List Nat → List Nat) :
    ∀ (acts : List Action) (s s1 : Sys) (calls : List CallbackCall),
      Reachable utf8 s → run utf8 s acts = some (s1, calls) → Reachable utf8 s1 := by
  intro acts
  induction acts with
  | nil =>
    intro s s1 calls hr hrun
    simp only [run, Option.some.injEq, Prod.mk.injEq] at hrun
    rw [← hrun.1]; exact hr
  | cons a acts ih =>
    intro s s1 calls hr hrun
    simp only [run] at hrun
    cases hstep : step utf8 s a with
    | none => rw [hstep] at hrun; cases hrun
    | some r =>
      obtain ⟨sa, ca⟩ := r
      rw [hstep] at hrun
      simp only [] at hrun
      cases hrest : run utf8 sa acts with
      | none => rw [hrest] at hrun; cases hrun
      | some r2 =>
        obtain ⟨sb, cb⟩ := r2
        rw [hrest] at hrun
        simp only [Option.some.injEq, Prod.mk.injEq] at hrun
        rw [← hrun.1]
        exact ih sa sb cb (Reachable.step a hr hstep) hrest

theorem error_code_step (utf8 : List Nat → List Nat) (s s1 : Sys) (a : Action)
    (calls : List CallbackCall) (hinv : worker_inv s) (he : s.target.error_code ≠ 0)
    (hstep : step utf8 s a = some (s1, calls)) :
    s1.target.error_code = s.target.error_code := by
  have hafter := hinv.2.2.2.2 he
  by_cases ha : a.is_api_call = true
  · obtain ⟨s2, h2, _, _, he2, _, _⟩ := step_api_cases utf8 s a ha
    rw [h2] at hstep
    simp only [Option.some.injEq, Prod.mk.injEq] at hstep
    rw [← hstep.1]; exact he2
  · cases a with
    | set_callback cb => exact absurd rfl ha
    | start_watch => exact absurd rfl ha
    | stop_watch => exact absurd rfl ha
    | get_error => exact absurd rfl ha
    | get_win32_error => exact absurd rfl ha
    | worker m =>
      cases hpc : s.pc with
      | store_exit =>
        simp only [step, worker_step, hpc, Option.some.injEq, Prod.mk.injEq] at hstep
        rw [← hstep.1]
      | call_null =>
        simp only [step, worker_step, hpc] at hstep
        split at hstep <;>
          (simp only [Option.some.injEq, Prod.mk.injEq] at hstep
           rw [← hstep.1])
      | returned c =>
        simp only [step, worker_step, hpc] at hstep
        cases hstep
      | _ =>
        rw [hpc] at hafter
        cases hafter
    | io r =>
      simp only [step, io_complete] at hstep
      cases hpc : s.pc with
      | read_changes =>
        rw [hpc] at hafter
        cases hafter
      | _ =>
        rw [hpc] at hstep
        simp at hstep

theorem error_code_run (utf8 : List Nat → List Nat) :
    ∀ (acts : List Action) (s s1 : Sys) (calls : List CallbackCall),
      worker_inv s → s.target.error_code ≠ 0 → run utf8 s acts = some (s1, calls) →
      s1.target.error_code = s.target.error_code := by
  intro acts
  induction acts with
  | nil =>
    intro s s1 calls _ _ hrun
    simp only [run, Option.some.injEq, Prod.mk.injEq] at hrun
    rw [← hrun.1]
  | cons a acts ih =>
    intro s s1 calls hinv he hrun
    simp only [run] at hrun
    cases hstep : step utf8 s a with
    | none => rw [hstep] at hrun; cases hrun
    | some r =>
      obtain ⟨sa, ca⟩ := r
      rw [hstep] at hrun
      simp only [] at hrun
      cases hrest : run utf8 sa acts with
      | none => rw [hrest] at hrun; cases hrun
      | some r2 =>
        obtain ⟨sb, cb⟩ := r2
        rw [hrest] at hrun
        simp only [Option.some.injEq, Prod.mk.injEq] at hrun
        have h1 := error_code_step utf8 s sa a ca hinv he hstep
        have h2 := ih sa sb cb (worker_inv_step utf8 s sa a ca hinv hstep)
          (by rw [h1]; exact he) hrest
        rw [← hrun.1, h2, h1]

theorem get_target_error_congr (t1 t2 : _dirwatcher_target_impl_t)
    (hm : t1.magic = t2.magic) (he : t1.error_code = t2.error_code) :
    (dirwatcher_get_target_error (some t1)).ret = (dirwatcher_get_target_error (some t2)).ret := by
  unfold dirwatcher_get_target_error _is_valid_target_ptr
  simp only [hm, he]
  split_ifs <;> rfl

/-- C6: when the notification call has failed with `ERROR_OPERATION_ABORTED`, the worker
(whatever lifecycle calls are made meanwhile) invokes no callback, leaves `error_code` and
`exit_flag` as they are, and is back at the wait for the control event; and in no
reachable state is `error_code` equal to `ERROR_OPERATION_ABORTED`. -/
theorem cancelled_read_is_not_an_error (utf8 : List Nat → List Nat) (s : Sys)
    (m1 m2 : Nat → Bool) (apis : List Action)
    (hpc : s.pc = .get_callback) (hfail : s.locals.success = false)
    (herr : s.locals.last_error = ERROR_OPERATION_ABORTED)
    (hapis : ∀ a, a ∈ apis → a.is_api_call = true) :
    (∃ s1, run utf8 s (.worker m1 :: (apis ++ [.worker m2])) = some (s1, []) ∧
      s1.pc = .wait_enable ∧ s1.target.error_code = s.target.error_code ∧
      s1.target.exit_flag = s.target.exit_flag) ∧
    (∀ s2, Reachable utf8 s2 → s2.target.error_code ≠ (ERROR_OPERATION_ABORTED : Int)) := by
  constructor
  · have hstep1 : step utf8 s (.worker m1)
        = some ({ s with pc := .handle_result,
                         locals := { s.locals with cb := s.target.callback } }, []) := by
      simp only [step, worker_step, hpc]
    obtain ⟨sb, hrun, hpb, hlb, _, heb, hxb⟩ := run_api_calls_frame utf8 apis
      { s with pc := .handle_result, locals := { s.locals with cb := s.target.callback } }
      hapis (by simp)
    have hsb_pc : sb.pc = .handle_result := hpb
    have hsb_succ : sb.locals.success = false := by rw [hlb]; exact hfail
    have hsb_err : sb.locals.last_error = ERROR_OPERATION_ABORTED := by rw [hlb]; exact herr
    have hstep2 : step utf8 sb (.worker m2) = some ({ sb with pc := .wait_enable }, []) := by
      simp [step, worker_step, hsb_pc, hsb_succ, hsb_err]
    simp only [run, hstep1, run_append, hrun, hstep2, List.nil_append, List.append_nil]
    exact ⟨_, rfl, rfl, heb, hxb⟩
  · intro s2 hr
    exact (worker_inv_reachable utf8 s2 hr).2.1

theorem cancelled_read_is_not_an_error_witness :
    cancelled_state.pc = .get_callback ∧ cancelled_state.locals.success = false ∧
    cancelled_state.locals.last_error = ERROR_OPERATION_ABORTED ∧
    ∃ s1, run ascii cancelled_state
        (.worker (fun _ => true) :: ([.start_watch] ++ [.worker (fun _ => true)]))
        = some (s1, []) ∧ s1.pc = .wait_enable ∧ s1.target.error_code = 0 :=
  ⟨rfl, rfl, rfl,
   (cancelled_read_is_not_an_error ascii cancelled_state (fun _ => true) (fun _ => true)
      [.start_watch] rfl rfl rfl (by intro a ha; simp at ha; rw [ha]; rfl)).1.imp
     (fun _ h => ⟨h.1, h.2.1, h.2.2.1⟩)⟩

/-- C7: in a reachable state whose `error_code` is non-zero, no lifecycle call
(set-callback, start, stop, the two error getters), no worker step and no completion of a
notification call changes `error_code`: after any schedule it is the same value, and it
is what `dirwatcher_get_target_win32_error` and (mapped) `dirwatcher_get_target_error`
return. -/
theorem sticky_error_is_permanent (utf8 : List Nat → List Nat) (s : Sys)
    (hr : Reachable utf8 s) (he : s.target.error_code ≠ 0)
    (acts : List Action) (s1 : Sys) (calls : List CallbackCall)
    (hrun : run utf8 s acts = some (s1, calls)) :
    s1.target.error_code = s.target.error_code ∧
    (dirwatcher_get_target_win32_error (some s1.target)).ret = s.target.error_code ∧
    (dirwatcher_get_target_error (some s1.target)).ret
      = (dirwatcher_get_target_error (some s.target)).ret := by
  have hinv := worker_inv_reachable utf8 s hr
  have hinv1 := worker_inv_reachable utf8 s1 (reachable_run utf8 acts s s1 calls hr hrun)
  have hcode := error_code_run utf8 acts s s1 calls hinv he hrun
  refine ⟨hcode, ?_, ?_⟩
  · have hv := valid_of_magic s1.target hinv1.1
    simp [dirwatcher_get_target_win32_error, hv, hcode]
  · exact get_target_error_congr _ _ (by rw [hinv1.1, hinv.1]) hcode

theorem fatal_schedule_run :
    run ascii (init { next := 0, live := [] }) fatal_schedule = some (fatal_state, []) := rfl

theorem after_fatal_run :
    run ascii fatal_state after_fatal_schedule
      = some (after_fatal_state, [{ fn := 7, event_info := none }]) := rfl

theorem sticky_error_is_permanent_witness :
    Reachable ascii fatal_state ∧ fatal_state.target.error_code ≠ 0 ∧
    run ascii fatal_state after_fatal_schedule
      = some (after_fatal_state, [{ fn := 7, event_info := none }]) ∧
    (dirwatcher_get_target_win32_error (some after_fatal_state.target)).ret = 5 :=
  have hr : Reachable ascii fatal_state :=
    reachable_run ascii fatal_schedule _ fatal_state [] (Reachable.init _) fatal_schedule_run
  have hne : fatal_state.target.error_code ≠ 0 := by decide
  ⟨hr, hne, after_fatal_run,
   (sticky_error_is_permanent ascii fatal_state hr hne after_fatal_schedule after_fatal_state
      [{ fn := 7, event_info := none }] after_fatal_run).2.1⟩

/-! ## The worker's error exit -/

theorem on_error_exit_congr (e : Nat) (cb : Option Nat) (s s1 : Sys)
    (left : List CallbackCall) (hp : s1.pc = s.pc) (hl : s1.locals = s.locals)
    (he : s1.target.error_code = s.target.error_code)
    (hx : s1.target.exit_flag = s.target.exit_flag)
    (h : on_error_exit e cb s left) : on_error_exit e cb s1 left := by
  unfold on_error_exit at h ⊢
  rw [hp, hl, he, hx]
  exact h

theorem on_error_exit_step (utf8 : List Nat → List Nat) (e : Nat) (cb : Option Nat)
    (he : e ≠ ERROR_OPERATION_ABORTED) (s s1 : Sys) (a : Action)
    (left calls : List CallbackCall) (h : on_error_exit e cb s left)
    (hstep : step utf8 s a = some (s1, calls)) :
    ∃ left1, on_error_exit e cb s1 left1 ∧ left = calls ++ left1 := by
  by_cases ha : a.is_api_call = true
  · obtain ⟨s2, h2, _, hx2, he2, _, hc⟩ := step_api_cases utf8 s a ha
    rw [h2] at hstep
    simp only [Option.some.injEq, Prod.mk.injEq] at hstep
    obtain ⟨rfl, rfl⟩ := hstep
    rcases hc with ⟨hp, hl⟩ | ⟨hp, _, _⟩
    · exact ⟨left, on_error_exit_congr e cb s _ left hp hl he2 hx2 h, rfl⟩
    · unfold on_error_exit at h
      rw [hp] at h
      exact absurd h (by simp)
  · cases a with
    | set_callback cb => exact absurd rfl ha
    | start_watch => exact absurd rfl ha
    | stop_watch => exact absurd rfl ha
    | get_error => exact absurd rfl ha
    | get_win32_error => exact absurd rfl ha
    | worker m =>
      unfold on_error_exit at h
      cases hpc : s.pc with
      | handle_result =>
        rw [hpc] at h
        obtain ⟨hs, hle, hcb, hleft⟩ := h
        have hne : s.locals.last_error ≠ ERROR_OPERATION_ABORTED := by rw [hle]; exact he
        simp only [step, worker_step, hpc, hs, hne, if_false, Bool.false_eq_true,
          Option.some.injEq, Prod.mk.injEq] at hstep
        obtain ⟨rfl, rfl⟩ := hstep
        exact ⟨left, ⟨hle, hcb, hleft⟩, rfl⟩
      | store_error =>
        rw [hpc] at h
        obtain ⟨hle, hcb, hleft⟩ := h
        simp only [step, worker_step, hpc, Option.some.injEq, Prod.mk.injEq] at hstep
        obtain ⟨rfl, rfl⟩ := hstep
        exact ⟨left, ⟨by show toLONG s.locals.last_error = toLONG e; rw [hle], hcb, hleft⟩, rfl⟩
      | store_exit =>
        rw [hpc] at h
        obtain ⟨hcode, hcb, hleft⟩ := h
        simp only [step, worker_step, hpc, Option.some.injEq, Prod.mk.injEq] at hstep
        obtain ⟨rfl, rfl⟩ := hstep
        exact ⟨left, ⟨hcode, rfl, hcb, hleft⟩, rfl⟩
      | call_null =>
        rw [hpc] at h
        obtain ⟨hcode, hexit, hcb, hleft⟩ := h
        simp only [step, worker_step, hpc] at hstep
        cases hc : s.locals.cb with
        | none =>
          rw [hc] at hstep hcb
          simp only [Option.some.injEq, Prod.mk.injEq] at hstep
          obtain ⟨rfl, rfl⟩ := hstep
          refine ⟨[], ⟨hcode, hexit, rfl⟩, ?_⟩
          rw [hleft, ← hcb]; rfl
        | some f =>
          rw [hc] at hstep hcb
          simp only [Option.some.injEq, Prod.mk.injEq] at hstep
          obtain ⟨rfl, rfl⟩ := hstep
          refine ⟨[], ⟨hcode, hexit, rfl⟩, ?_⟩
          rw [hleft, ← hcb]; rfl
      | returned c =>
        simp only [step, worker_step, hpc] at hstep
        cases hstep
      | wait_enable => rw [hpc] at h; exact absurd h (by simp)
      | check_exit => rw [hpc] at h; exact absurd h (by simp)
      | read_changes => rw [hpc] at h; exact absurd h (by simp)
      | get_callback => rw [hpc] at h; exact absurd h (by simp)
    | io r =>
      simp only [step, io_complete] at hstep
      cases hpc : s.pc with
      | read_changes =>
        unfold on_error_exit at h
        rw [hpc] at h
        exact absurd h (by simp)
      | _ =>
        rw [hpc] at hstep
        simp at hstep

theorem on_error_exit_run (utf8 : List Nat → List Nat) (e : Nat) (cb : Option Nat)
    (he : e ≠ ERROR_OPERATION_ABORTED) :
    ∀ (acts : List Action) (s s1 : Sys) (left calls : List CallbackCall),
      on_error_exit e cb s left → run utf8 s acts = some (s1, calls) →
      ∃ left1, on_error_exit e cb s1 left1 ∧ left = calls ++ left1 := by
  intro acts
  induction acts with
  | nil =>
    intro s s1 left calls h hrun
    simp only [run, Option.some.injEq, Prod.mk.injEq] at hrun
    obtain ⟨rfl, rfl⟩ := hrun
    exact ⟨left, h, rfl⟩
  | cons a acts ih =>
    intro s s1 left calls h hrun
    simp only [run] at hrun
    cases hstep : step utf8 s a with
    | none => rw [hstep] at hrun; cases hrun
    | some r =>
      obtain ⟨sa, ca⟩ := r
      rw [hstep] at hrun
      simp only [] at hrun
      cases hrest : run utf8 sa acts with
      | none => rw [hrest] at hrun; cases hrun
      | some r2 =>
        obtain ⟨sb, cb2⟩ := r2
        rw [hrest] at hrun
        simp only [Option.some.injEq, Prod.mk.injEq] at hrun
        obtain ⟨rfl, rfl⟩ := hrun
        obtain ⟨l1, h1, e1⟩ := on_error_exit_step utf8 e cb he s sa a left ca h hstep
        obtain ⟨l2, h2, e2⟩ := ih sa sb l1 cb2 h1 hrest
        exact ⟨l2, h2, by rw [e1, e2, List.append_assoc]⟩

theorem snapshot_then_dispatch (utf8 : List Nat → List Nat) (hutf8 : utf8 [] = [])
    (s : Sys) (f : Nat) (recs : List FILE_NOTIFY_INFORMATION) (m1 m2 : Nat → Bool)
    (hpc : s.pc = .get_callback) (hsucc : s.locals.success = true)
    (hcb : s.target.callback = some f)
    (hchain : Chain { size := NOTIFY_BUFFER_SIZE, view := s.locals.notify_buffer } 0 recs)
    (hn : recs.length ≤ s.locals.events.length)
    (hok : ∀ i, i < recs.length → m2 i = true) :
    ∃ s1 calls, run utf8 s [.worker m1, .worker m2] = some (s1, calls) ∧
      calls.map call_view = recs.map (fun r => (f, some (record_view utf8 r))) := by
  have hstep1 : step utf8 s (.worker m1)
      = some ({ s with pc := .handle_result,
                       locals := { s.locals with cb := s.target.callback } }, []) := by
    simp only [step, worker_step, hpc]
  obtain ⟨l1, heap1, calls, hw, hcalls, _⟩ :=
    worker_handle_success_ok utf8 hutf8 m2 { s.locals with cb := s.target.callback } s.heap f
      hchain hn hcb hok
  have hstep2 : step utf8
      { s with pc := .handle_result, locals := { s.locals with cb := s.target.callback } }
      (.worker m2)
      = some ({ s with pc := .wait_enable, locals := l1, heap := heap1 }, calls) := by
    simp only [step, worker_step]
    rw [if_pos hsucc, hw]
  refine ⟨{ s with pc := .wait_enable, locals := l1, heap := heap1 }, calls, ?_, hcalls⟩
  simp only [run, hstep1, hstep2, List.nil_append, List.append_nil]

/-- C5 (as the code has it): when the notification call has failed with a code other than
`ERROR_OPERATION_ABORTED`, the worker's next four steps store the code in `error_code`
(as a `LONG`; unchanged below 2^31), set `exit_flag` to 1, make the invocation
`null_call cb` for the snapshot `cb` - one call with the `NULL` event if a callback is
installed, none if the snapshot is `NULL` - and return.  Under every schedule the
invocations made from that state on are a prefix of `null_call cb`, and they are exactly
`null_call cb`, with the code stored and the flag set, whenever the worker has returned:
nothing is invoked afterwards. -/
theorem worker_fatal_error (utf8 : List Nat → List Nat) (s : Sys)
    (hpc : s.pc = .handle_result) (hfail : s.locals.success = false)
    (herr : s.locals.last_error ≠ ERROR_OPERATION_ABORTED) :
    (∀ m1 m2 m3 m4 : Nat → Bool, ∃ s1,
      run utf8 s [.worker m1, .worker m2, .worker m3, .worker m4]
        = some (s1, null_call s.locals.cb) ∧
      s1.pc = .returned 4294967295 ∧
      s1.target.error_code = toLONG s.locals.last_error ∧ s1.target.exit_flag = 1) ∧
    (s.locals.last_error < 2 ^ 31 → toLONG s.locals.last_error = (s.locals.last_error : Int)) ∧
    (∀ f, s.locals.cb = some f → null_call s.locals.cb = [{ fn := f, event_info := none }]) ∧
    (s.locals.cb = none → null_call s.locals.cb = []) ∧
    (∀ (acts : List Action) (s1 : Sys) (calls : List CallbackCall),
      run utf8 s acts = some (s1, calls) →
      (∃ left, null_call s.locals.cb = calls ++ left) ∧
      (∀ c, s1.pc = .returned c →
        calls = null_call s.locals.cb ∧
        s1.target.error_code = toLONG s.locals.last_error ∧ s1.target.exit_flag = 1)) := by
  refine ⟨?_, toLONG_of_lt _, ?_, ?_, ?_⟩
  · intro m1 m2 m3 m4
    refine ⟨{ target := { s.target with error_code := toLONG s.locals.last_error,
                                         exit_flag := 1 },
              pc := .returned 4294967295, locals := s.locals, heap := s.heap },
      ?_, rfl, rfl, rfl⟩
    cases hc : s.locals.cb with
    | none => simp [run, step, worker_step, hpc, hfail, herr, hc, null_call]
    | some f => simp [run, step, worker_step, hpc, hfail, herr, hc, null_call]
  · intro f hf; rw [hf]; rfl
  · intro hn; rw [hn]; rfl
  · intro acts s1 calls hrun
    have h0 : on_error_exit s.locals.last_error s.locals.cb s (null_call s.locals.cb) := by
      unfold on_error_exit
      rw [hpc]
      exact ⟨hfail, rfl, rfl, rfl⟩
    obtain ⟨left1, h1, e1⟩ := on_error_exit_run utf8 _ _ herr acts s s1 _ calls h0 hrun
    refine ⟨⟨left1, e1⟩, ?_⟩
    intro c hc
    unfold on_error_exit at h1
    rw [hc] at h1
    obtain ⟨hcode, hexit, hleft⟩ := h1
    rw [hleft, List.append_nil] at e1
    exact ⟨e1.symm, hcode, hexit⟩

theorem worker_fatal_error_witness :
    (failed_state (some 7)).pc = .handle_result ∧
    (failed_state (some 7)).locals.success = false ∧
    (failed_state (some 7)).locals.last_error ≠ ERROR_OPERATION_ABORTED ∧
    ∃ s1, run ascii (failed_state (some 7))
        [.worker (fun _ => true), .worker (fun _ => true), .worker (fun _ => true),
         .worker (fun _ => true)]
        = some (s1, [{ fn := 7, event_info := none }]) ∧
      s1.pc = .returned 4294967295 ∧ s1.target.error_code = 5 ∧ s1.target.exit_flag = 1 :=
  ⟨rfl, rfl, by decide,
   ((worker_fatal_error ascii (failed_state (some 7)) rfl rfl (by decide)).1
      (fun _ => true) (fun _ => true) (fun _ => true) (fun _ => true)).imp
     (fun _ h => ⟨h.1, h.2.1, h.2.2.1, h.2.2.2⟩)⟩

/-- C5 as stated fails when no callback is installed: a target is opened and started, the
notification call fails with `ERROR_ACCESS_DENIED`, the worker runs its error exit and
returns, and it has made no callback invocation at all. -/
theorem fatal_error_without_callback :
    run ascii (init { next := 0, live := [] })
        [.start_watch, .worker (fun _ => true), .worker (fun _ => true), .io (.failure 5),
         .worker (fun _ => true)] = some (failed_state none, []) ∧
    (failed_state none).pc = .handle_result ∧
    (failed_state none).locals.success = false ∧
    (failed_state none).locals.last_error ≠ ERROR_OPERATION_ABORTED ∧
    ∃ s1, run ascii (failed_state none)
        [.worker (fun _ => true), .worker (fun _ => true), .worker (fun _ => true),
         .worker (fun _ => true)] = some (s1, []) ∧
      s1.pc = .returned 4294967295 ∧ s1.target.error_code = 5 ∧ s1.target.exit_flag = 1 ∧
      ∀ m, step ascii s1 (.worker m) = none :=
  ⟨rfl, rfl, rfl, by decide, _, rfl, rfl, rfl, rfl, fun _ => rfl⟩

/-! ## Callbacks while paused -/

/-- C10 (what the code does): `dirwatcher_stop_watch_target` can return while a batch
that the notification call has already delivered is still unhandled - the control event
is reset, nothing is pending for `CancelIoEx` to cancel - and the worker's next two steps
then invoke the callback for every event of the batch; and it can return after the worker
has woken and before it issues the notification call, which the worker then issues, and
whose events it delivers, while the target is paused. -/
theorem callbacks_after_stop :
    run ascii (init { next := 0, live := [] }) stop_after_read_schedule
      = some (stopped_state, []) ∧
    stopped_state.target.worker_control_event = false ∧
    (∃ s2 calls,
      run ascii stopped_state [.worker (fun _ => true), .worker (fun _ => true)]
        = some (s2, calls) ∧
      calls.map call_view
        = [(7, some (some [97], .DIRWATCHER_EVENT_ADDED)),
           (7, some (some [98, 99], .DIRWATCHER_EVENT_REMOVED))]) ∧
    run ascii (init { next := 0, live := [] }) stop_before_read_schedule
      = some (stopped_state, []) :=
  by
  refine ⟨rfl, rfl, ?_, rfl⟩
  have hlen : sample_records.length ≤ stopped_state.locals.events.length := by
    show sample_records.length ≤ (List.replicate EVENTS_CAPACITY zero_event).length
    rw [List.length_replicate]; decide
  obtain ⟨s2, calls, hrun, hcalls⟩ :=
    snapshot_then_dispatch ascii rfl stopped_state 7 sample_records (fun _ => true)
      (fun _ => true) rfl rfl rfl sample_chain hlen (fun _ _ => rfl)
  exact ⟨s2, calls, hrun, hcalls⟩

/-! ## The count of a batch and the `events` array -/

theorem loop_some (utf8 : List Nat → List Nat) (malloc_ok : Nat → Bool)
    {buf : NotifyBuffer} {p : Nat} {recs : List FILE_NOTIFY_INFORMATION}
    (h : Chain buf p recs) :
    ∀ todo i arr heap, ∃ b arr1 heap1,
      notifies_to_events_loop utf8 malloc_ok buf todo i p arr heap = some (b, arr1, heap1) ∧
      arr1.length = arr.length := by
  induction h with
  | last hd hz =>
    intro todo i arr heap
    cases todo with
    | zero => exact ⟨true, arr, heap, rfl, rfl⟩
    | succ todo =>
      cases hm : malloc_ok i with
      | false =>
        refine ⟨false, memset_zero arr, free_names arr i heap, ?_, by simp [memset_zero]⟩
        simp [notifies_to_events_loop, hd, malloc, hm]
      | true =>
        simp only [notifies_to_events_loop, hd, malloc, hm, if_true, _go_next_notify, hz]
        exact ⟨_, _, _, rfl, List.length_set _ _ _⟩
  | next hd hne hc ih =>
    intro todo i arr heap
    cases todo with
    | zero => exact ⟨true, arr, heap, rfl, rfl⟩
    | succ todo =>
      cases hm : malloc_ok i with
      | false =>
        refine ⟨false, memset_zero arr, free_names arr i heap, ?_, by simp [memset_zero]⟩
        simp [notifies_to_events_loop, hd, malloc, hm]
      | true =>
        simp only [notifies_to_events_loop, hd, malloc, hm, if_true, _go_next_notify, hne,
          if_false]
        obtain ⟨b, arr1, heap1, hloop, hlen⟩ := ih todo (i + 1)
          (arr.set i
            { name := some
                { block := heap.next,
                  bytes := (_wstrn_to_cstr utf8 _ _ _).2 },
              event := _action_to_event _ })
          { next := heap.next + 1, live := heap.next :: heap.live }
        exact ⟨b, arr1, heap1, hloop, by rw [hlen, List.length_set]⟩

theorem notifies_to_events_some (utf8 : List Nat → List Nat) (malloc_ok : Nat → Bool)
    {buf : NotifyBuffer} {p : Nat} {recs : List FILE_NOTIFY_INFORMATION}
    (h : Chain buf p recs) (arr : List dirwatcher_event_info_t) (count0 : Nat) (heap : Heap) :
    ∃ res arr1, _notifies_to_events utf8 malloc_ok buf p (some arr) (some count0) heap = some res ∧
      res.arr = some arr1 ∧ arr1.length = arr.length ∧
      (res.count = some recs.length ∨ res.count = some 0) := by
  obtain ⟨b, arr1, heap1, hloop, hlen⟩ :=
    loop_some utf8 malloc_ok h arr.length 0 (memset_zero arr) heap
  have hm : (memset_zero arr).length = arr.length := by simp [memset_zero]
  simp only [_notifies_to_events, get_notifies_count_of_chain h]
  rw [hloop]
  cases b with
  | false => exact ⟨_, arr1, rfl, rfl, by rw [hlen, hm], Or.inr rfl⟩
  | true => exact ⟨_, arr1, rfl, rfl, by rw [hlen, hm], Or.inl rfl⟩

theorem dispatch_loop_some (cb : Option Nat) (events : List dirwatcher_event_info_t) :
    ∀ todo i, i + todo ≤ events.length →
      ∃ calls, dispatch_loop cb events todo i = some calls ∧ calls.length ≤ todo := by
  intro todo
  induction todo with
  | zero => intro i _; exact ⟨[], rfl, Nat.le_refl _⟩
  | succ todo ih =>
    intro i hi
    have hlt : i < events.length := by omega
    obtain ⟨calls, hc, hl⟩ := ih (i + 1) (by omega)
    cases cb with
    | none =>
      refine ⟨calls, ?_, by omega⟩
      simp only [dispatch_loop]
      exact hc
    | some f =>
      refine ⟨{ fn := f, event_info := some events[i] } :: calls, ?_, by simp; omega⟩
      simp only [dispatch_loop, List.get?_eq_getElem?, List.getElem?_eq_getElem hlt, hc]

/-- C13: for a record chain that lies inside the worker's 4096-byte buffer (every record
header read inside it, so the last record starts at least 12 bytes before its end) and
whose non-zero `NextEntryOffset`s are all at least 16, `_get_notifies_count` returns the
number of records, which is at most 256; so the count `_notifies_to_events` reports is at
most 256 whatever the allocator does, and the worker's handling of the batch - the
dispatch loop and `_cleanup_events` over that count - stays inside the 256-entry `events`
array. -/
theorem notifies_count_fits_events (utf8 : List Nat → List Nat) (malloc_ok : Nat → Bool)
    (l : WorkerLocals) (p : Nat) (recs : List FILE_NOTIFY_INFORMATION)
    (hchain : Chain { size := NOTIFY_BUFFER_SIZE, view := l.notify_buffer } p recs)
    (hsp : ∀ r, r ∈ recs → r.NextEntryOffset ≠ 0 → 16 ≤ r.NextEntryOffset)
    (hev : l.events.length = EVENTS_CAPACITY) :
    _get_notifies_count { size := NOTIFY_BUFFER_SIZE, view := l.notify_buffer } p
      = some recs.length ∧
    recs.length ≤ EVENTS_CAPACITY ∧
    (∀ (arr : List dirwatcher_event_info_t) (count0 : Nat) (heap : Heap),
      ∃ res k, _notifies_to_events utf8 malloc_ok
          { size := NOTIFY_BUFFER_SIZE, view := l.notify_buffer } p (some arr) (some count0) heap
          = some res ∧
        res.count = some k ∧ k ≤ EVENTS_CAPACITY) ∧
    (p = 0 → ∀ heap : Heap, ∃ l1 heap1 calls,
      worker_handle_success utf8 malloc_ok l heap = some (l1, heap1, calls) ∧
      l1.events_count ≤ EVENTS_CAPACITY ∧ calls.length ≤ EVENTS_CAPACITY ∧
      l1.events.length = EVENTS_CAPACITY) := by
  have hb := chain_spaced_bound hchain hsp
  have hn : recs.length ≤ EVENTS_CAPACITY := by
    simp only [NOTIFY_BUFFER_SIZE] at hb
    unfold EVENTS_CAPACITY
    omega
  refine ⟨get_notifies_count_of_chain hchain, hn, ?_, ?_⟩
  · intro arr count0 heap
    obtain ⟨res, arr1, hres, _, _, hc⟩ :=
      notifies_to_events_some utf8 malloc_ok hchain arr count0 heap
    rcases hc with hc | hc
    · exact ⟨res, recs.length, hres, hc, hn⟩
    · exact ⟨res, 0, hres, hc, Nat.zero_le _⟩
  · intro hp heap
    subst hp
    obtain ⟨res, arr1, hres, harr, hlen, hc⟩ :=
      notifies_to_events_some utf8 malloc_ok hchain l.events l.events_count heap
    have hk : ∃ k, res.count = some k ∧ k ≤ EVENTS_CAPACITY := by
      rcases hc with hc | hc
      · exact ⟨_, hc, hn⟩
      · exact ⟨0, hc, Nat.zero_le _⟩
    obtain ⟨k, hk1, hk2⟩ := hk
    have hfit : 0 + k ≤ arr1.length := by rw [hlen, hev]; omega
    obtain ⟨calls, hd, hcl⟩ := dispatch_loop_some l.cb arr1 k 0 hfit
    obtain ⟨r, hr, hrl⟩ := cleanup_loop_some k 0 arr1 res.heap hfit
    unfold worker_handle_success
    rw [hres]
    simp only [harr, hk1, Option.getD_some, hd, _cleanup_events, hr]
    exact ⟨_, _, _, rfl, hk2, by omega, by rw [hrl, hlen, hev]⟩

theorem notifies_count_fits_events_witness :
    Chain { size := NOTIFY_BUFFER_SIZE, view := sample_state.locals.notify_buffer } 0
      sample_records ∧
    (∀ r, r ∈ sample_records → r.NextEntryOffset ≠ 0 → 16 ≤ r.NextEntryOffset) ∧
    sample_state.locals.events.length = EVENTS_CAPACITY ∧
    _get_notifies_count { size := NOTIFY_BUFFER_SIZE, view := sample_buffer } 0 = some 2 ∧
    sample_records.length ≤ EVENTS_CAPACITY :=
  have hsp : ∀ r, r ∈ sample_records → r.NextEntryOffset ≠ 0 → 16 ≤ r.NextEntryOffset := by
    decide
  have hev : sample_state.locals.events.length = EVENTS_CAPACITY := by
    show (List.replicate EVENTS_CAPACITY zero_event).length = EVENTS_CAPACITY
    rw [List.length_replicate]
  have h := notifies_count_fits_events ascii (fun _ => true) sample_state.locals 0
    sample_records sample_chain hsp hev
  ⟨sample_chain, hsp, hev, h.1, h.2.1⟩

/-! ## Closing a target -/

theorem close_schedule_run :
    closing_run ascii (closing_start watching_state) close_schedule
      = some (closed_state, []) := rfl

theorem delete_target_calls_eq (t : _dirwatcher_target_impl_t) :
    (_delete_target t).2 = delete_target_calls := rfl

theorem returned_stable (utf8 : List Nat → List Nat) (s s1 : Sys) (a : Action)
    (calls : List CallbackCall) (code : Nat) (hpc : s.pc = .returned code)
    (hstep : step utf8 s a = some (s1, calls)) : s1.pc = .returned code ∧ calls = [] := by
  by_cases ha : a.is_api_call = true
  · obtain ⟨s2, h2, _, _, _, _, hc⟩ := step_api_cases utf8 s a ha
    rw [h2] at hstep
    simp only [Option.some.injEq, Prod.mk.injEq] at hstep
    obtain ⟨rfl, rfl⟩ := hstep
    rcases hc with ⟨hp, _⟩ | ⟨hp, _, _⟩
    · exact ⟨by rw [hp, hpc], rfl⟩
    · rw [hpc] at hp; cases hp
  · cases a with
    | set_callback cb => exact absurd rfl ha
    | start_watch => exact absurd rfl ha
    | stop_watch => exact absurd rfl ha
    | get_error => exact absurd rfl ha
    | get_win32_error => exact absurd rfl ha
    | worker m =>
      simp only [step, worker_step, hpc] at hstep
      cases hstep
    | io r =>
      simp only [step, io_complete, hpc] at hstep
      cases hstep

theorem perform_pc (e : OsCall) (s s1 : Sys) (code : Nat) (hpc : s.pc = .returned code)
    (h : perform e s = some s1) : s1.pc = .returned code := by
  cases e with
  | ResetEvent h1 => simp only [perform, Option.some.injEq] at h; rw [← h]; exact hpc
  | SetEvent h1 => simp only [perform, Option.some.injEq] at h; rw [← h]; exact hpc
  | CancelIoEx h1 =>
    simp only [perform, Option.some.injEq, apply_calls] at h
    rw [← h]
    split_ifs with hc
    · rw [hpc] at hc; exact absurd hc.2 (by simp)
    · exact hpc
  | WaitForSingleObject h1 =>
    cases h1 with
    | dir_handle => simp [perform] at h
    | worker_thread_handle =>
      simp only [perform, hpc, Option.some.injEq] at h
      rw [← h]; exact hpc
    | worker_control_event =>
      simp only [perform] at h
      split_ifs at h
      simp only [Option.some.injEq] at h
      rw [← h]; exact hpc
  | CloseHandle h1 => simp only [perform, Option.some.injEq] at h; rw [← h]; exact hpc
  | InterlockedExchange_exit_flag v =>
    simp only [perform, Option.some.injEq] at h; rw [← h]; exact hpc
  | store_magic v => simp only [perform, Option.some.injEq] at h; rw [← h]; exact hpc
  | free_target => simp only [perform, Option.some.injEq] at h; rw [← h]; exact hpc

theorem closing_inv_step (utf8 : List Nat → List Nat) (c c1 : Closing) (a : ClosingAction)
    (calls : List CallbackCall) (hinv : closing_inv c)
    (hstep : closing_step utf8 c a = some (c1, calls)) : closing_inv c1 := by
  obtain ⟨k, htodo, hpre, hpost⟩ := hinv
  cases a with
  | other b =>
    simp only [closing_step] at hstep
    cases hs : step utf8 c.sys b with
    | none => rw [hs] at hstep; cases hstep
    | some r =>
      obtain ⟨s1, cs⟩ := r
      rw [hs] at hstep
      simp only [Option.some.injEq, Prod.mk.injEq] at hstep
      obtain ⟨rfl, _⟩ := hstep
      refine ⟨k, htodo, hpre, ?_⟩
      intro hk
      obtain ⟨code, hcode⟩ := hpost hk
      exact ⟨code, (returned_stable utf8 c.sys s1 b cs code hcode hs).1⟩
  | caller =>
    simp only [closing_step] at hstep
    by_cases hk : 10 ≤ k
    · have hnil : c.todo = [] := by
        rw [htodo]
        exact List.drop_eq_nil_of_le (by simpa [delete_target_calls] using hk)
      rw [hnil] at hstep
      cases hstep
    · have hlt : k < delete_target_calls.length := by
        simp only [delete_target_calls, List.length_cons, List.length_nil]; omega
      rw [htodo, List.drop_eq_getElem_cons hlt] at hstep
      simp only [] at hstep
      cases hp : perform delete_target_calls[k] c.sys with
      | none => rw [hp] at hstep; cases hstep
      | some s1 =>
        rw [hp] at hstep
        simp only [Option.some.injEq, Prod.mk.injEq] at hstep
        obtain ⟨rfl, _⟩ := hstep
        refine ⟨k + 1, rfl, ?_, ?_⟩
        · intro hk1
          have hk4 : k ≤ 4 := by omega
          obtain ⟨hcl, hfr⟩ := hpre (by omega)
          interval_cases k <;> exact ⟨hcl, hfr⟩
        · intro hk1
          rcases Nat.lt_or_ge k 5 with h5 | h5
          · have hk4 : k = 4 := by omega
            subst hk4
            have hw : delete_target_calls[4] = OsCall.WaitForSingleObject .worker_thread_handle :=
              rfl
            rw [hw] at hp
            simp only [perform] at hp
            cases hpc : c.sys.pc with
            | returned code =>
              rw [hpc] at hp
              simp only [Option.some.injEq] at hp
              exact ⟨code, by rw [← hp]; exact hpc⟩
            | _ => rw [hpc] at hp; cases hp
          · obtain ⟨code, hcode⟩ := hpost h5
            exact ⟨code, perform_pc _ c.sys s1 code hcode hp⟩

theorem closing_inv_run (utf8 : List Nat → List Nat) :
    ∀ (sched : List ClosingAction) (c c1 : Closing) (calls : List CallbackCall),
      closing_inv c → closing_run utf8 c sched = some (c1, calls) → closing_inv c1 := by
  intro sched
  induction sched with
  | nil =>
    intro c c1 calls hinv hrun
    simp only [closing_run, Option.some.injEq, Prod.mk.injEq] at hrun
    rw [← hrun.1]; exact hinv
  | cons a sched ih =>
    intro c c1 calls hinv hrun
    simp only [closing_run] at hrun
    cases hstep : closing_step utf8 c a with
    | none => rw [hstep] at hrun; cases hrun
    | some r =>
      obtain ⟨ca, cs⟩ := r
      rw [hstep] at hrun
      simp only [] at hrun
      cases hrest : closing_run utf8 ca sched with
      | none => rw [hrest] at hrun; cases hrun
      | some r2 =>
        obtain ⟨cb, cs2⟩ := r2
        rw [hrest] at hrun
        simp only [Option.some.injEq, Prod.mk.injEq] at hrun
        rw [← hrun.1]
        exact ih ca cb cs2 (closing_inv_step utf8 c ca a cs hinv hstep) hrest

/-- C11: on a valid target `dirwatcher_close_target` returns `true` and its actions are,
in this order: reset the control event, set the exit flag, cancel the pending notification
call, set the control event, wait for the worker thread, close the directory handle, the
thread handle and the control event, clear `magic`, free the target.  Under every
interleaving of these actions with worker steps, I/O completions and lifecycle calls of
other threads, whenever a handle has been closed or the target freed the thread function
of the worker has returned.  And a worker that wakes from the wait with the exit flag set
returns 0 in its next step: it issues no notification call and invokes no callback. -/
theorem close_target_protocol (utf8 : List Nat → List Nat) (t : _dirwatcher_target_impl_t)
    (hm : t.magic = DIRWATCHER_TARGET_MAGIC_NUMBER) :
    (dirwatcher_close_target (some t)).ret = true ∧
    (dirwatcher_close_target (some t)).calls
      = [.ResetEvent .worker_control_event,
         .InterlockedExchange_exit_flag 1,
         .CancelIoEx .dir_handle,
         .SetEvent .worker_control_event,
         .WaitForSingleObject .worker_thread_handle,
         .CloseHandle .dir_handle,
         .CloseHandle .worker_thread_handle,
         .CloseHandle .worker_control_event,
         .store_magic 0,
         .free_target] ∧
    (dirwatcher_close_target (some t)).target
      = some { t with magic := 0, worker_control_event := true, exit_flag := 1 } ∧
    (∀ (s : Sys) (sched : List ClosingAction) (c : Closing) (calls : List CallbackCall),
      s.target = t → closing_run utf8 (closing_start s) sched = some (c, calls) →
      (c.closed ≠ [] ∨ c.freed = true) → ∃ code, c.sys.pc = .returned code) ∧
    (∀ (s : Sys) (m1 m2 : Nat → Bool), s.pc = .wait_enable →
      s.target.worker_control_event = true → s.target.exit_flag ≠ 0 →
      step utf8 s (.worker m1) = some ({ s with pc := .check_exit }, []) ∧
      run utf8 s [.worker m1, .worker m2] = some ({ s with pc := .returned 0 }, [])) ∧
    (∀ (s : Sys) (m : Nat → Bool), s.pc = .check_exit → s.target.exit_flag ≠ 0 →
      step utf8 s (.worker m) = some ({ s with pc := .returned 0 }, [])) := by
  have hv := valid_of_magic t hm
  refine ⟨?_, ?_, ?_, ?_, ?_, ?_⟩
  · simp [dirwatcher_close_target, hv]
  · simp [dirwatcher_close_target, hv, _delete_target]
  · simp [dirwatcher_close_target, hv, _delete_target]
  · intro s sched c calls hs hrun hrel
    have hstart : closing_inv (closing_start s) := by
      refine ⟨0, ?_, fun _ => ⟨rfl, rfl⟩, fun h => absurd h (by omega)⟩
      show (dirwatcher_close_target (some s.target)).calls = delete_target_calls
      rw [hs]
      simp [dirwatcher_close_target, hv, _delete_target, delete_target_calls]
    obtain ⟨k, _, hpre, hpost⟩ := closing_inv_run utf8 sched _ c calls hstart hrun
    rcases Nat.lt_or_ge k 5 with hk | hk
    · obtain ⟨h1, h2⟩ := hpre (by omega)
      rcases hrel with hrel | hrel
      · exact absurd h1 hrel
      · rw [h2] at hrel; cases hrel
    · exact hpost hk
  · intro s m1 m2 hpc hctl hexit
    have h1 : step utf8 s (.worker m1) = some ({ s with pc := .check_exit }, []) := by
      simp only [step, worker_step, hpc, hctl, if_true]
    have h2 : step utf8 { s with pc := .check_exit } (.worker m2)
        = some ({ s with pc := .returned 0 }, []) := by
      simp only [step, worker_step]
      rw [if_pos hexit]
    refine ⟨h1, ?_⟩
    simp only [run, h1, h2, List.append_nil]
  · intro s m hpc hexit
    simp only [step, worker_step, hpc]
    rw [if_pos hexit]

theorem close_target_protocol_witness :
    watching_state.target.magic = DIRWATCHER_TARGET_MAGIC_NUMBER ∧
    closing_run ascii (closing_start watching_state) close_schedule
      = some (closed_state, []) ∧
    (closed_state.closed ≠ [] ∨ closed_state.freed = true) ∧
    (∃ code, closed_state.sys.pc = .returned code) ∧
    (dirwatcher_close_target (some watching_state.target)).target
      = some closed_state.sys.target :=
  ⟨rfl, close_schedule_run, Or.inr rfl,
   (close_target_protocol ascii watching_state.target rfl).2.2.2.1 watching_state
     close_schedule closed_state [] rfl close_schedule_run (Or.inr rfl),
   rfl⟩

/-! ## The callback slot -/

/-- C12 (what the code does): `dirwatcher_set_target_callback` takes the target and the
function only; on a valid target it returns `true` and changes the `callback` field, the
one field of the slot, leaving the four other fields of the target as they were.  The
worker's next snapshot is that function, and an event, like the `NULL` event of the error
exit, is delivered by a call of the function with the event as its only argument. -/
theorem set_callback_stores_function_only :
    (∀ (control : Bool) (exit_flag error_code : Int) (old cb : Option Nat),
      dirwatcher_set_target_callback
        (some { magic := DIRWATCHER_TARGET_MAGIC_NUMBER, worker_control_event := control,
                exit_flag := exit_flag, error_code := error_code, callback := old }) cb
        = { ret := true,
            target := some { magic := DIRWATCHER_TARGET_MAGIC_NUMBER,
                             worker_control_event := control, exit_flag := exit_flag,
                             error_code := error_code, callback := cb },
            calls := [] }) ∧
    run ascii (init { next := 0, live := [] })
        [.set_callback (some 7), .start_watch, .worker (fun _ => true),
         .worker (fun _ => true), .io (.success sample_buffer)]
      = some (started_state, []) ∧
    step ascii started_state (.worker (fun _ => true))
      = some ({ started_state with
                  pc := .handle_result,
                  locals := { started_state.locals with cb := some 7 } }, []) ∧
    (∃ s1 calls,
      run ascii started_state [.worker (fun _ => true), .worker (fun _ => true)]
        = some (s1, calls) ∧
      calls.map call_view
        = [(7, some (some [97], .DIRWATCHER_EVENT_ADDED)),
           (7, some (some [98, 99], .DIRWATCHER_EVENT_REMOVED))]) ∧
    (∃ s1,
      run ascii (failed_state (some 7))
        [.worker (fun _ => true), .worker (fun _ => true), .worker (fun _ => true),
         .worker (fun _ => true)] = some (s1, [{ fn := 7, event_info := none }])) := by
  refine ⟨?_, rfl, rfl, ?_, ⟨_, rfl⟩⟩
  · intro control exit_flag error_code old cb
    have hv := valid_of_magic
      { magic := DIRWATCHER_TARGET_MAGIC_NUMBER, worker_control_event := control,
        exit_flag := exit_flag, error_code := error_code, callback := old } rfl
    simp [dirwatcher_set_target_callback, hv]
  · have hlen : sample_records.length ≤ started_state.locals.events.length := by
      show sample_records.length ≤ (List.replicate EVENTS_CAPACITY zero_event).length
      rw [List.length_replicate]; decide
    obtain ⟨s2, calls, hrun, hcalls⟩ :=
      snapshot_then_dispatch ascii rfl started_state 7 sample_records (fun _ => true)
        (fun _ => true) rfl rfl rfl sample_chain hlen (fun _ _ => rfl)
    exact ⟨s2, calls, hrun, hcalls⟩

end Dirwatcher
